import Mathlib

/-!
# Peer message handlers and the service resolver contract

A shallow embedding of `pkg/peermgr/handle.go` and
`internal/executor/contracts/service_resolver.go`.

Conventions of the embedding.

* A Go `string` and a Go `[]byte` are both modelled by `String`, read as the
  sequence of their bytes; the conversions `string(b)` and `[]byte(s)` are the
  identity.
* A `uint64` is a `Nat` below `2 ^ 64`; the loop counter increment is taken
  modulo `2 ^ 64`.
* Every handler is a function from the mutable state of the swarm (the pier
  directory and the pending pier queries) to a `Run`: the trace of the effects
  it performed, in order, and its outcome. An outcome is a normal return, a Go
  run-time panic, or exhaustion of the fuel given to a loop.
* The collaborators that live outside the two files (codec, ledger, transport,
  TSS capability, pier directory operations, contract stub) are fields of an
  environment record; a handler started with `go` is run in place.
-/

namespace Peermgr

/-! ## Data carried on the wire -/

/-- Go byte slices and strings. -/
abbrev Bytes := String

/-- Values printed by a format verb. -/
inductive Arg
  | str (s : String)
  | num (n : Nat)
  | bool (b : Bool)
  deriving DecidableEq, Repr

/-- Go error values: one produced by a collaborator, or one built by
`fmt.Errorf` with the verb `%w` around a cause. -/
inductive Error
  | external (msg : String)
  | wrap (format : String) (args : List Arg) (cause : Error)
  deriving DecidableEq, Repr

/-- Values handed to a log line: a printed value or an error. -/
inductive LogArg
  | str (s : String)
  | num (n : Nat)
  | bool (b : Bool)
  | err (e : Error)
  deriving DecidableEq, Repr

deriving instance DecidableEq for Except

/-- The enumeration `pb.Message_Type`: the kinds named in `handle.go`, and
`other` for every remaining value of the underlying integer. -/
inductive MessageType
  | GET_BLOCK
  | GET_BLOCK_ACK
  | GET_BLOCK_HEADERS
  | GET_BLOCK_HEADERS_ACK
  | GET_BLOCKS
  | GET_BLOCKS_ACK
  | FETCH_CERT
  | FETCH_CERT_ACK
  | FETCH_P2P_PUBKEY
  | FETCH_P2P_PUBKEY_ACK
  | FETCH_TSS_PUBKEY
  | FETCH_TSS_PUBKEY_ACK
  | FETCH_TSS_INFO
  | FETCH_TSS_INFO_ACK
  | CONSENSUS
  | FETCH_BLOCK_SIGN
  | FETCH_BLOCK_SIGN_ACK
  | FETCH_IBTP_REQUEST_SIGN
  | FETCH_IBTP_RESPONSE_SIGN
  | FETCH_IBTP_SIGN_ACK
  | FETCH_IBTP_REQUEST_TSS_SIGN
  | FETCH_IBTP_RESPONSE_TSS_SIGN
  | FETCH_IBTP_TSS_SIGN_ACK
  | CHECK_MASTER_PIER
  | CHECK_MASTER_PIER_ACK
  | TSS_TASK
  | FETCH_TSS_NODES
  | TSS_CULPRITS
  | Tss_KEYSIGN_NOT_PARTIES
  | Tss_KEYSIGN_NOT_PARTIES_ACK
  | other (code : Nat)
  deriving DecidableEq, Repr

/-- The envelope `pb.Message`; `Typ` is its field `Type`. -/
structure Message where
  Typ : MessageType
  Data : Bytes
  deriving DecidableEq, Repr

/-- An inbound stream: its identity and the peer at its far end. -/
structure Stream where
  id : Nat
  RemotePeerID : String
  deriving DecidableEq, Repr

/-- A block header, `pb.BlockHeader`. -/
structure BlockHeader where
  Number : Nat
  Digest : Bytes
  deriving DecidableEq, Repr

/-- A block, `pb.Block`: its header and its body. -/
structure Block where
  BlockHeader : BlockHeader
  Body : Bytes
  deriving DecidableEq, Repr

/-- The request `pb.GetBlockHeadersRequest`. -/
structure GetBlockHeadersRequest where
  Start : Nat
  End : Nat
  deriving DecidableEq, Repr

/-- The request `pb.GetBlocksRequest`. -/
structure GetBlocksRequest where
  Start : Nat
  End : Nat
  deriving DecidableEq, Repr

/-- The response `pb.GetBlockHeadersResponse`. -/
structure GetBlockHeadersResponse where
  BlockHeaders : List BlockHeader
  deriving DecidableEq, Repr

/-- The response `pb.GetBlocksResponse`. -/
structure GetBlocksResponse where
  Blocks : List Block
  deriving DecidableEq, Repr

/-- The enumeration `pb.GetSignsRequest_Type`. -/
inductive GetSignsRequestType
  | TSS_IBTP_REQUEST
  | other (code : Nat)
  deriving DecidableEq, Repr

/-- The request `pb.GetSignsRequest`; `Typ` is its field `Type`. -/
structure GetSignsRequest where
  Typ : GetSignsRequestType
  Content : String
  Extra : Bytes
  deriving DecidableEq, Repr

/-- The record `model.CertsMessage`. -/
structure CertsMessage where
  AgencyCert : Bytes
  NodeCert : Bytes
  deriving DecidableEq, Repr

/-- The record `model.MerkleWrapperSign`. -/
structure MerkleWrapperSign where
  Address : String
  Signature : Bytes
  CulpritIDs : List String
  deriving DecidableEq, Repr

/-- The enumeration `pb.CheckPierResponse_Status`; `ERROR_MASTER` is the zero
value. -/
inductive CheckPierStatus
  | ERROR_MASTER
  | HAS_MASTER
  | NO_MASTER
  deriving DecidableEq, Repr

/-- The value returned by `Tss.GetTssInfo`, of which only its encoding is
used. -/
structure TssInfo where
  Raw : Bytes
  deriving DecidableEq, Repr

/-- The response `pb.CheckPierResponse`. -/
structure CheckPierResponse where
  Status : CheckPierStatus
  Address : String
  deriving DecidableEq, Repr

/-! ## Effects -/

/-- One observable effect of a handler. `invoke` marks the call of a handler
by the dispatcher. -/
inductive Event
  | logDebug (format : String) (args : List LogArg)
  | logError (format : String) (args : List LogArg)
  | getBlock (height : Nat) (full : Bool)
  | getBlockSign (height : Nat)
  | getTssPubkey
  | getTssInfo
  | getIBTPSign (id : String) (isReq : Bool)
  | getIBTPTssSign (content : String) (isReq : Bool) (signers : List String) (randomN : String)
  | notifyNotTssParties (content : String) (isReq : Bool) (signers : List String) (randomN : String)
  | sendWithStream (s : Stream) (m : Message)
  | broadcast (m : Message)
  | asyncSend (peer : String) (data : Bytes)
  | orderMessageFeed (data : Bytes)
  | tssSignResultFeed (m : Message)
  | tssMessageFeed (m : Message)
  | tssCulpritsFeed (m : Message)
  | writeChan (resp : CheckPierResponse)
  | invoke (handler : String)
  deriving DecidableEq, Repr

/-- How a piece of code ends: a normal return with the state it leaves, a
run-time panic, or the loop fuel running out. -/
inductive Outcome (σ α : Type)
  | ret (a : α) (st : σ)
  | panic (why : String)
  | outOfFuel
  deriving DecidableEq, Repr

/-- The effects performed, in order, and the outcome. -/
structure Run (σ α : Type) where
  trace : List Event
  out : Outcome σ α
  deriving DecidableEq, Repr

/-- Code running over a state of type `σ`. -/
def Exec (σ α : Type) : Type := σ → Run σ α

namespace Exec

variable {σ α β : Type}

/-- Return without effect. -/
def pure (a : α) : Exec σ α := fun st => ⟨[], .ret a st⟩

/-- Sequencing: the trace of the first part followed by that of the second;
a panic or fuel exhaustion ends the run. -/
def bind (x : Exec σ α) (f : α → Exec σ β) : Exec σ β := fun st =>
  match x st with
  | ⟨t, .ret a st1⟩ => ⟨t ++ (f a st1).trace, (f a st1).out⟩
  | ⟨t, .panic w⟩ => ⟨t, .panic w⟩
  | ⟨t, .outOfFuel⟩ => ⟨t, .outOfFuel⟩

instance : Monad (Exec σ) where
  pure := Exec.pure
  bind := Exec.bind

/-- Perform one effect. -/
def emit (e : Event) : Exec σ Unit := fun st => ⟨[e], .ret () st⟩

/-- A run-time panic. -/
def panic (why : String) : Exec σ α := fun _ => ⟨[], .panic why⟩

/-- The loop fuel ran out. -/
def outOfFuel : Exec σ α := fun _ => ⟨[], .outOfFuel⟩

/-- Read the state. -/
def get : Exec σ σ := fun st => ⟨[], .ret st st⟩

/-- Replace the state. -/
def set (st : σ) : Exec σ Unit := fun _ => ⟨[], .ret () st⟩

end Exec

/-- The slice index expression `xs[i]`, which panics out of range. -/
def index {σ : Type} (xs : List String) (i : Nat) : Exec σ String :=
  match xs.get? i with
  | some x => Exec.pure x
  | none => Exec.panic "index out of range"

/-! ## Strings -/

/-- Split a character sequence at every occurrence of `sep`; the pieces are
returned in order, the current piece `cur` first. -/
def splitChars (sep : Char) : List Char → List Char → List (List Char)
  | cur, [] => [cur]
  | cur, c :: cs =>
    if c = sep then cur :: splitChars sep [] cs else splitChars sep (cur ++ [c]) cs

/-- Go `strings.Split(s, sep)` for a one-byte separator. -/
def Split (s : String) (sep : Char) : List String :=
  (splitChars sep [] s.data).map String.mk

/-- The digit loop of Go `strconv.ParseUint(s, 10, 64)`: characters are read
from the left, a character that is no decimal digit is a syntax error and a
value that leaves the 64-bit range is a range error. -/
def parseUintLoop : List Char → Nat → Except Error Nat
  | [], n => .ok n
  | c :: cs, n =>
    if c.isDigit then
      if n ≥ (2 ^ 64 - 1) / 10 + 1 then .error (.external "value out of range")
      else if n * 10 + (c.toNat - 48) > 2 ^ 64 - 1 then .error (.external "value out of range")
      else parseUintLoop cs (n * 10 + (c.toNat - 48))
    else .error (.external "invalid syntax")

/-- Go `strconv.ParseUint(s, 10, 64)`. -/
def ParseUint (s : String) : Except Error Nat :=
  if s.data = [] then .error (.external "invalid syntax") else parseUintLoop s.data 0

/-! ## The swarm -/

/-- The mutable state reached through `swarm.piers`: the pier directory and
the pending pier queries. -/
structure Piers (PM PC : Type) where
  pierMap : PM
  pierChan : PC
  deriving DecidableEq, Repr

/-- The collaborators of the handlers: the protobuf and model codecs, the
ledger, the transport, the node configuration, the TSS capability with the
helpers of `pkg/utils`, and the operations of the pier directory and of the
pending pier queries. None of them is defined in `handle.go`. -/
structure Swarm (PM PC : Type) where
  unmarshalMessage : Bytes → Except Error Message
  marshalMessage : Message → Except Error Bytes
  messageString : Message → String
  unmarshalGetBlockHeadersRequest : Bytes → Except Error GetBlockHeadersRequest
  unmarshalGetBlocksRequest : Bytes → Except Error GetBlocksRequest
  unmarshalGetSignsRequest : Bytes → Except Error GetSignsRequest
  unmarshalCheckPierResponse : Bytes → Except Error CheckPierResponse
  marshalBlock : Block → Except Error Bytes
  marshalGetBlockHeadersResponse : GetBlockHeadersResponse → Except Error Bytes
  marshalGetBlocksResponse : GetBlocksResponse → Except Error Bytes
  marshalCertsMessage : CertsMessage → Except Error Bytes
  marshalMerkleWrapperSign : MerkleWrapperSign → Except Error Bytes
  marshalCheckPierResponse : CheckPierResponse → Except Error Bytes
  marshalTssInfo : TssInfo → Except Error Bytes
  ledgerGetBlock : Nat → Bool → Except Error Block
  ledgerGetBlockSign : Nat → Except Error Bytes
  transportSendWithStream : Stream → Message → Option Error
  transportBroadcast : Message → Option Error
  transportAsyncSend : String → Bytes → Option Error
  AgencyCertData : Bytes
  NodeCertData : Bytes
  EnableTSS : Bool
  KeyAddress : String
  p2pPublicKeyRaw : Except Error Bytes
  tssGetTssPubkey : Except Error (String × Bytes)
  tssGetTssInfo : Except Error TssInfo
  utilsGetIBTPSign : String → Bool → Except Error (String × Bytes)
  utilsGetIBTPTssSign : String → Bool → List String → String → Except Error (Bytes × List String)
  utilsNotifyNotTssParties : String → Bool → List String → String → Option Error
  checkAddress : PC → String → Bool
  writeChan : PC → CheckPierResponse → PC
  hasPier : PM → String → Bool
  checkMaster : PM → String → Bool
  rmMaster : PM → String → PM

section Handlers

variable {PM PC : Type}

/-- The call `swarm.ledger.GetBlock(height, full)`. -/
def GetBlock (sw : Swarm PM PC) (height : Nat) (full : Bool) :
    Exec (Piers PM PC) (Except Error Block) := do
  Exec.emit (.getBlock height full)
  pure (sw.ledgerGetBlock height full)

/-- The call `swarm.SendWithStream(s, m)`. -/
def SendWithStream (sw : Swarm PM PC) (s : Stream) (m : Message) :
    Exec (Piers PM PC) (Option Error) := do
  Exec.emit (.sendWithStream s m)
  pure (sw.transportSendWithStream s m)

/-- The call `swarm.Broadcast(m)`. -/
def Broadcast (sw : Swarm PM PC) (m : Message) : Exec (Piers PM PC) (Option Error) := do
  Exec.emit (.broadcast m)
  pure (sw.transportBroadcast m)

/-- The call `swarm.p2p.AsyncSend(peer, data)`. -/
def AsyncSend (sw : Swarm PM PC) (peer : String) (data : Bytes) :
    Exec (Piers PM PC) (Option Error) := do
  Exec.emit (.asyncSend peer data)
  pure (sw.transportAsyncSend peer data)

/-- The handler `handleGetBlockPack`. -/
def handleGetBlockPack (sw : Swarm PM PC) (s : Stream) (msg : Message) :
    Exec (Piers PM PC) (Option Error) := do
  match ParseUint msg.Data with
  | .error err =>
    pure (some (.wrap "convert %s string to int failed: %w" [.str msg.Data] err))
  | .ok num =>
    match ← GetBlock sw num true with
    | .error err =>
      pure (some (.wrap "get block with height %d failed: %w" [.num num] err))
    | .ok block =>
      match sw.marshalBlock block with
      | .error err => pure (some (.wrap "marshal block error: %w" [] err))
      | .ok v =>
        let m : Message := { Typ := .GET_BLOCK_ACK, Data := v }
        match ← SendWithStream sw s m with
        | some err =>
          pure (some (.wrap "send %s with stream failed: %w" [.str (sw.messageString m)] err))
        | none => pure none

/-- The loop of `handleGetBlockHeadersPack`:
`for i := req.Start; i <= req.End; i++`, with `i` the counter, `blockHeaders`
the slice built so far, and one unit of fuel for each test of the loop
condition. An error return of the handler is `Except.error`. -/
def headersLoop (sw : Swarm PM PC) (endHeight : Nat) :
    Nat → Nat → List BlockHeader → Exec (Piers PM PC) (Except Error (List BlockHeader))
  | 0, _, _ => Exec.outOfFuel
  | fuel + 1, i, blockHeaders =>
    if i ≤ endHeight then do
      match ← GetBlock sw i false with
      | .error err =>
        pure (.error (.wrap "get block with height %d from ledger failed: %w" [.num i] err))
      | .ok block =>
        headersLoop sw endHeight fuel ((i + 1) % 2 ^ 64) (blockHeaders ++ [block.BlockHeader])
    else pure (.ok blockHeaders)

/-- The handler `handleGetBlockHeadersPack`; `fuel` bounds the number of
tests of the loop condition. -/
def handleGetBlockHeadersPack (sw : Swarm PM PC) (fuel : Nat) (s : Stream) (msg : Message) :
    Exec (Piers PM PC) (Option Error) := do
  match sw.unmarshalGetBlockHeadersRequest msg.Data with
  | .error err => pure (some (.wrap "unmarshal get block headers request error: %w" [] err))
  | .ok req =>
    match ← headersLoop sw req.End fuel req.Start [] with
    | .error err => pure (some err)
    | .ok blockHeaders =>
      let res : GetBlockHeadersResponse := { BlockHeaders := blockHeaders }
      match sw.marshalGetBlockHeadersResponse res with
      | .error err =>
        pure (some (.wrap "marshal get block headers response error: %w" [] err))
      | .ok v =>
        let m : Message := { Typ := .GET_BLOCK_HEADERS_ACK, Data := v }
        match ← SendWithStream sw s m with
        | some err =>
          pure (some (.wrap "send %s with stream failed: %w" [.str (sw.messageString m)] err))
        | none => pure none

/-- The loop of `handleGetBlocksPack`, as `headersLoop` with full blocks. -/
def blocksLoop (sw : Swarm PM PC) (endHeight : Nat) :
    Nat → Nat → List Block → Exec (Piers PM PC) (Except Error (List Block))
  | 0, _, _ => Exec.outOfFuel
  | fuel + 1, i, blocks =>
    if i ≤ endHeight then do
      match ← GetBlock sw i true with
      | .error err =>
        pure (.error (.wrap "get block with height %d from ledger failed: %w" [.num i] err))
      | .ok block => blocksLoop sw endHeight fuel ((i + 1) % 2 ^ 64) (blocks ++ [block])
    else pure (.ok blocks)

/-- The handler `handleGetBlocksPack`; `fuel` bounds the number of tests of
the loop condition. -/
def handleGetBlocksPack (sw : Swarm PM PC) (fuel : Nat) (s : Stream) (msg : Message) :
    Exec (Piers PM PC) (Option Error) := do
  match sw.unmarshalGetBlocksRequest msg.Data with
  | .error err => pure (some (.wrap "unmarshal get blcoks request error: %w" [] err))
  | .ok req =>
    match ← blocksLoop sw req.End fuel req.Start [] with
    | .error err => pure (some err)
    | .ok blocks =>
      let res : GetBlocksResponse := { Blocks := blocks }
      match sw.marshalGetBlocksResponse res with
      | .error err => pure (some (.wrap "marshal get blocks response error: %w" [] err))
      | .ok v =>
        let m : Message := { Typ := .GET_BLOCKS_ACK, Data := v }
        match ← SendWithStream sw s m with
        | some err =>
          pure (some (.wrap "send %s with stream failed: %w" [.str (sw.messageString m)] err))
        | none => pure none

/-- The handler `handleFetchCertMessage`. -/
def handleFetchCertMessage (sw : Swarm PM PC) (s : Stream) :
    Exec (Piers PM PC) (Option Error) := do
  let certs : CertsMessage := { AgencyCert := sw.AgencyCertData, NodeCert := sw.NodeCertData }
  match sw.marshalCertsMessage certs with
  | .error err => pure (some (.wrap "marshal certs: %w" [] err))
  | .ok data =>
    let msg : Message := { Typ := .FETCH_CERT_ACK, Data := data }
    match ← SendWithStream sw s msg with
    | some err => pure (some (.wrap "send msg: %w" [] err))
    | none => pure none

/-- The handler `handleFetchP2PPubkey`. -/
def handleFetchP2PPubkey (sw : Swarm PM PC) (s : Stream) :
    Exec (Piers PM PC) (Option Error) := do
  if sw.EnableTSS then
    match sw.p2pPublicKeyRaw with
    | .error err => pure (some (.wrap "get p2p pubkey data error: %w" [] err))
    | .ok pubkeyData =>
      let msg : Message := { Typ := .FETCH_P2P_PUBKEY_ACK, Data := pubkeyData }
      match ← SendWithStream sw s msg with
      | some err => pure (some (.wrap "send msg: %w" [] err))
      | none => pure none
  else pure none

/-- The handler `handleFetchTssPubKey`. -/
def handleFetchTssPubKey (sw : Swarm PM PC) (s : Stream) : Exec (Piers PM PC) Unit := do
  Exec.emit .getTssPubkey
  match sw.tssGetTssPubkey with
  | .error err => Exec.emit (.logError "we do not have tss pubkey info: %v" [.err err])
  | .ok (addr, _) =>
    let msg : Message := { Typ := .FETCH_TSS_PUBKEY_ACK, Data := addr }
    match ← SendWithStream sw s msg with
    | some err => Exec.emit (.logError "send msg: %w" [.err err])
    | none => pure ()

/-- The handler `handleFetchTssInfo`. -/
def handleFetchTssInfo (sw : Swarm PM PC) (s : Stream) : Exec (Piers PM PC) Unit := do
  Exec.emit .getTssInfo
  match sw.tssGetTssInfo with
  | .error err => Exec.emit (.logError "we do not know tss keygen parties pk: %v" [.err err])
  | .ok info =>
    match sw.marshalTssInfo info with
    | .error err => Exec.emit (.logError "tss info marshal error: %v" [.err err])
    | .ok data =>
      let msg : Message := { Typ := .FETCH_TSS_INFO_ACK, Data := data }
      match ← SendWithStream sw s msg with
      | some err => Exec.emit (.logError "send msg: %w" [.err err])
      | none => pure ()

/-- The closure `handle` of `handleFetchBlockSignMessage`. -/
def handleFetchBlockSignMessage.handle (sw : Swarm PM PC) (data : Bytes) :
    Exec (Piers PM PC) (Except Error Bytes) := do
  match ParseUint data with
  | .error err => pure (.error (.wrap "parse height: %w" [] err))
  | .ok height =>
    Exec.emit (.logDebug "Handle fetching block sign message" [.num height])
    Exec.emit (.getBlockSign height)
    match sw.ledgerGetBlockSign height with
    | .error err => pure (.error (.wrap "get block sign: %w" [] err))
    | .ok signed => pure (.ok signed)

/-- The handler `handleFetchBlockSignMessage`. -/
def handleFetchBlockSignMessage (sw : Swarm PM PC) (s : Stream) (data : Bytes) :
    Exec (Piers PM PC) Unit := do
  match ← handleFetchBlockSignMessage.handle sw data with
  | .error err => Exec.emit (.logError "handle fetch-block-sign: %s" [.err err])
  | .ok signed =>
    let m : MerkleWrapperSign := { Address := sw.KeyAddress, Signature := signed, CulpritIDs := [] }
    match sw.marshalMerkleWrapperSign m with
    | .error err => Exec.emit (.logError "marshal merkle wrapper sign: %s" [.err err])
    | .ok body =>
      let msg : Message := { Typ := .FETCH_BLOCK_SIGN_ACK, Data := body }
      match ← SendWithStream sw s msg with
      | some err => Exec.emit (.logError "send block sign back: %s" [.err err])
      | none => pure ()

/-- The handler `handleFetchIBTPSignMessage`. -/
def handleFetchIBTPSignMessage (sw : Swarm PM PC) (s : Stream) (data : Bytes) (isReq : Bool) :
    Exec (Piers PM PC) Unit := do
  Exec.emit (.getIBTPSign data isReq)
  match sw.utilsGetIBTPSign data isReq with
  | .error err =>
    Exec.emit (.logError "handle fetch-ibtp-sign for ibtp %s isReq %v: %s"
      [.str data, .bool isReq, .err err])
  | .ok (address, signed) =>
    let m : MerkleWrapperSign := { Address := address, Signature := signed, CulpritIDs := [] }
    match sw.marshalMerkleWrapperSign m with
    | .error err => Exec.emit (.logError "marshal merkle wrapper sign: %s" [.err err])
    | .ok body =>
      let msg : Message := { Typ := .FETCH_IBTP_SIGN_ACK, Data := body }
      match ← SendWithStream sw s msg with
      | some err => Exec.emit (.logError "send asset exchange sign back: %s" [.err err])
      | none => pure ()

/-- The handler `handleNotTssParties`. -/
def handleNotTssParties (sw : Swarm PM PC) (s : Stream) (data : Bytes) :
    Exec (Piers PM PC) Unit := do
  match sw.unmarshalGetSignsRequest data with
  | .error err =>
    Exec.emit (.logError "handle fetch-ibtp-tss-sign unmarshal req error: %v" [.err err])
  | .ok req =>
    let isReq : Bool := decide (req.Typ = .TSS_IBTP_REQUEST)
    let signInfo := Split req.Extra (Char.ofNat 45)
    let notParties ← index signInfo 2
    Exec.emit (.logDebug "handleNotTssParties, notParties nodes: %s" [.str notParties])
    let signers ← index signInfo 0
    let randomN ← index signInfo 1
    Exec.emit (.notifyNotTssParties req.Content isReq (Split signers (Char.ofNat 44)) randomN)
    match sw.utilsNotifyNotTssParties req.Content isReq (Split signers (Char.ofNat 44)) randomN with
    | some err =>
      Exec.emit (.logError
        "handle not parties tss nodes keyRoundDone err: ibtp: %s isReq %v: %s"
        [.str data, .bool isReq, .err err])
    | none =>
      let msg : Message := { Typ := .Tss_KEYSIGN_NOT_PARTIES_ACK, Data := "ok" }
      match ← SendWithStream sw s msg with
      | some err => Exec.emit (.logError "send tss back: %s" [.err err])
      | none => pure ()

/-- The handler `handleFetchIBTPTssSignMessage`. -/
def handleFetchIBTPTssSignMessage (sw : Swarm PM PC) (_s : Stream) (data : Bytes)
    (isReq : Bool) : Exec (Piers PM PC) Unit := do
  match sw.unmarshalGetSignsRequest data with
  | .error err =>
    Exec.emit (.logError "handle fetch-ibtp-tss-sign unmarshal req error: %v" [.err err])
  | .ok req =>
    let signInfo := Split req.Extra (Char.ofNat 45)
    let signers ← index signInfo 0
    Exec.emit (.logDebug "handleFetchIBTPTssSignMessage, signers: %s" [.str signers])
    let signers0 ← index signInfo 0
    let randomN ← index signInfo 1
    Exec.emit (.getIBTPTssSign req.Content isReq (Split signers0 (Char.ofNat 44)) randomN)
    match sw.utilsGetIBTPTssSign req.Content isReq (Split signers0 (Char.ofNat 44)) randomN with
    | .error err =>
      Exec.emit (.logError "handle fetch-ibtp-tss-sign for ibtp: %s isReq %v: %s"
        [.str data, .bool isReq, .err err])
    | .ok (signed, culpritIDs) =>
      let m : MerkleWrapperSign :=
        { Address := sw.KeyAddress, Signature := signed, CulpritIDs := culpritIDs }
      match sw.marshalMerkleWrapperSign m with
      | .error err => Exec.emit (.logError "marshal merkle wrapper sign: %s" [.err err])
      | .ok body =>
        let msg : Message := { Typ := .FETCH_IBTP_TSS_SIGN_ACK, Data := body }
        match ← Broadcast sw msg with
        | some err => Exec.emit (.logError "broadcast tss sign back: %s" [.err err])
        | none => pure ()

/-- The handler `handleAskPierMaster`. -/
def handleAskPierMaster (sw : Swarm PM PC) (s : Stream) (data : Bytes) :
    Exec (Piers PM PC) Unit := do
  let address : String := data
  let piers ← Exec.get
  let reply : Exec (Piers PM PC) Unit := do
    let resp : CheckPierResponse := { Status := .HAS_MASTER, Address := address }
    match sw.marshalCheckPierResponse resp with
    | .error err => Exec.emit (.logError "marshal ask pier master response: %s" [.err err])
    | .ok msgData =>
      let message : Message := { Data := msgData, Typ := .CHECK_MASTER_PIER_ACK }
      match sw.marshalMessage message with
      | .error err => Exec.emit (.logError "marshal response message: %s" [.err err])
      | .ok msg =>
        match ← AsyncSend sw s.RemotePeerID msg with
        | some err => Exec.emit (.logError "send response: %s" [.err err])
        | none => pure ()
  if sw.checkAddress piers.pierChan address then
    reply
  else
    if !sw.hasPier piers.pierMap address then
      pure ()
    else if sw.checkMaster piers.pierMap address then
      reply
    else
      Exec.set { piers with pierMap := sw.rmMaster piers.pierMap address }

/-- The handler `handleReplyPierMaster`. -/
def handleReplyPierMaster (sw : Swarm PM PC) (_s : Stream) (data : Bytes) :
    Exec (Piers PM PC) Unit := do
  match sw.unmarshalCheckPierResponse data with
  | .error err => Exec.emit (.logError "unmarshal response: %s" [.err err])
  | .ok resp =>
    Exec.emit (.writeChan resp)
    let piers ← Exec.get
    Exec.set { piers with pierChan := sw.writeChan piers.pierChan resp }

/-- The closure `handler` of `handleMessage`: the switch on the kind of the
decoded envelope. Each call of a handler is marked by an `invoke` event. -/
def handleMessage.handler (sw : Swarm PM PC) (fuel : Nat) (s : Stream) (m : Message) :
    Exec (Piers PM PC) (Option Error) := do
  if m.Typ ≠ .CONSENSUS then
    Exec.emit (.logDebug "handle msg: %s" [])
  match m.Typ with
  | .GET_BLOCK =>
    Exec.emit (.invoke "handleGetBlockPack")
    handleGetBlockPack sw s m
  | .GET_BLOCK_HEADERS =>
    Exec.emit (.invoke "handleGetBlockHeadersPack")
    handleGetBlockHeadersPack sw fuel s m
  | .GET_BLOCKS =>
    Exec.emit (.invoke "handleGetBlocksPack")
    handleGetBlocksPack sw fuel s m
  | .FETCH_CERT =>
    Exec.emit (.invoke "handleFetchCertMessage")
    handleFetchCertMessage sw s
  | .FETCH_P2P_PUBKEY =>
    Exec.emit (.invoke "handleFetchP2PPubkey")
    handleFetchP2PPubkey sw s
  | .FETCH_TSS_PUBKEY =>
    Exec.emit (.invoke "handleFetchTssPubKey")
    handleFetchTssPubKey sw s
    pure none
  | .FETCH_TSS_INFO =>
    Exec.emit (.invoke "handleFetchTssInfo")
    handleFetchTssInfo sw s
    pure none
  | .CONSENSUS =>
    Exec.emit (.orderMessageFeed m.Data)
    pure none
  | .FETCH_BLOCK_SIGN =>
    Exec.emit (.invoke "handleFetchBlockSignMessage")
    handleFetchBlockSignMessage sw s m.Data
    pure none
  | .FETCH_IBTP_REQUEST_SIGN =>
    Exec.emit (.invoke "handleFetchIBTPSignMessage")
    handleFetchIBTPSignMessage sw s m.Data true
    pure none
  | .FETCH_IBTP_RESPONSE_SIGN =>
    Exec.emit (.invoke "handleFetchIBTPSignMessage")
    handleFetchIBTPSignMessage sw s m.Data false
    pure none
  | .FETCH_IBTP_REQUEST_TSS_SIGN =>
    Exec.emit (.invoke "handleFetchIBTPTssSignMessage")
    handleFetchIBTPTssSignMessage sw s m.Data true
    pure none
  | .FETCH_IBTP_RESPONSE_TSS_SIGN =>
    Exec.emit (.invoke "handleFetchIBTPTssSignMessage")
    handleFetchIBTPTssSignMessage sw s m.Data false
    pure none
  | .FETCH_IBTP_TSS_SIGN_ACK =>
    Exec.emit (.tssSignResultFeed m)
    pure none
  | .CHECK_MASTER_PIER =>
    Exec.emit (.invoke "handleAskPierMaster")
    handleAskPierMaster sw s m.Data
    pure none
  | .CHECK_MASTER_PIER_ACK =>
    Exec.emit (.invoke "handleReplyPierMaster")
    handleReplyPierMaster sw s m.Data
    pure none
  | .TSS_TASK =>
    Exec.emit (.tssMessageFeed m)
    pure none
  | .FETCH_TSS_NODES =>
    Exec.emit (.tssMessageFeed m)
    pure none
  | .TSS_CULPRITS =>
    Exec.emit (.logDebug "handle tss culprits msg" [])
    Exec.emit (.tssCulpritsFeed m)
    pure none
  | .Tss_KEYSIGN_NOT_PARTIES =>
    Exec.emit (.invoke "handleNotTssParties")
    handleNotTssParties sw s m.Data
    pure none
  | _ =>
    Exec.emit (.logError "can't handle msg[type: %v]" [])
    pure none

/-- The function `handleMessage`: decode the envelope, run the switch, and
log the error it returns. -/
def handleMessage (sw : Swarm PM PC) (fuel : Nat) (s : Stream) (data : Bytes) :
    Exec (Piers PM PC) Unit := do
  match sw.unmarshalMessage data with
  | .error err => Exec.emit (.logError "unmarshal message error: %s" [.err err])
  | .ok m =>
    match ← handleMessage.handler sw fuel s m with
    | some err => Exec.emit (.logError "Handle message" [.err err])
    | none => pure ()

/-- The kinds that have a case in the switch of `handleMessage`. -/
def switchKinds : List MessageType :=
  [.GET_BLOCK, .GET_BLOCK_HEADERS, .GET_BLOCKS, .FETCH_CERT, .FETCH_P2P_PUBKEY,
   .FETCH_TSS_PUBKEY, .FETCH_TSS_INFO, .CONSENSUS, .FETCH_BLOCK_SIGN,
   .FETCH_IBTP_REQUEST_SIGN, .FETCH_IBTP_RESPONSE_SIGN, .FETCH_IBTP_REQUEST_TSS_SIGN,
   .FETCH_IBTP_RESPONSE_TSS_SIGN, .FETCH_IBTP_TSS_SIGN_ACK, .CHECK_MASTER_PIER,
   .CHECK_MASTER_PIER_ACK, .TSS_TASK, .FETCH_TSS_NODES, .TSS_CULPRITS,
   .Tss_KEYSIGN_NOT_PARTIES]

/-- The events that put a message on the network: a reply on a stream, a
broadcast, or a direct send to a peer. -/
def Event.isOutbound : Event → Bool
  | .sendWithStream _ _ => true
  | .broadcast _ => true
  | .asyncSend _ _ => true
  | _ => false

/-- The events that hand a payload to an internal feed or channel. -/
def Event.isFeed : Event → Bool
  | .orderMessageFeed _ => true
  | .tssSignResultFeed _ => true
  | .tssMessageFeed _ => true
  | .tssCulpritsFeed _ => true
  | .writeChan _ => true
  | _ => false

/-- The events that consult the ledger for a block. -/
def Event.isGetBlock : Event → Bool
  | .getBlock _ _ => true
  | _ => false

/-- The events that mark the call of a handler. -/
def Event.isInvoke : Event → Bool
  | .invoke _ => true
  | _ => false

/-- Whether the ledger has a block for a height, for the given value of the
flag passed to `GetBlock`. -/
def resolves (sw : Swarm PM PC) (full : Bool) (height : Nat) : Bool :=
  match sw.ledgerGetBlock height full with
  | .ok _ => true
  | .error _ => false

end Handlers

/-! ## A concrete node

A small environment on which the handlers can be evaluated: textual codecs, a
ledger given by a list of blocks, a transport that always succeeds, and a pier
directory given by a list of addresses with their master flag. -/

/-- The pier directory of the concrete node: addresses with their master
flag. -/
abbrev SampleMap := List (String × Bool)

/-- The pending pier queries of the concrete node: the queried addresses. -/
abbrev SampleChan := List String

/-- Decode a range request written as two decimal heights separated by a
comma. -/
def sampleUnmarshalRange (data : Bytes) : Except Error (Nat × Nat) :=
  match Split data (Char.ofNat 44) with
  | [a, b] =>
    match ParseUint a, ParseUint b with
    | .ok x, .ok y => .ok (x, y)
    | _, _ => .error (.external "bad range request")
  | _ => .error (.external "bad range request")

/-- Decode a sign request written as kind, content and extra separated by
vertical bars; the kind `req` is `TSS_IBTP_REQUEST`. -/
def sampleUnmarshalSigns (data : Bytes) : Except Error GetSignsRequest :=
  match Split data (Char.ofNat 124) with
  | [k, c, e] =>
    .ok { Typ := if k = "req" then .TSS_IBTP_REQUEST else .other 1, Content := c, Extra := e }
  | _ => .error (.external "bad sign request")

/-- Decode an envelope written as a kind name and a payload separated by a
colon. -/
def sampleUnmarshalMessage (data : Bytes) : Except Error Message :=
  match Split data (Char.ofNat 58) with
  | [k, d] =>
    if k = "GET_BLOCK_HEADERS" then .ok { Typ := .GET_BLOCK_HEADERS, Data := d }
    else if k = "GET_BLOCKS" then .ok { Typ := .GET_BLOCKS, Data := d }
    else if k = "GET_BLOCK_ACK" then .ok { Typ := .GET_BLOCK_ACK, Data := d }
    else .ok { Typ := .other 99, Data := d }
  | _ => .error (.external "bad envelope")

/-- The concrete node over a ledger holding the given blocks. -/
def sampleSwarm (blocks : List Block) : Swarm SampleMap SampleChan where
  unmarshalMessage := sampleUnmarshalMessage
  marshalMessage := fun m => .ok ("msg:" ++ m.Data)
  messageString := fun m => m.Data
  unmarshalGetBlockHeadersRequest := fun data =>
    match sampleUnmarshalRange data with
    | .ok (x, y) => .ok { Start := x, End := y }
    | .error e => .error e
  unmarshalGetBlocksRequest := fun data =>
    match sampleUnmarshalRange data with
    | .ok (x, y) => .ok { Start := x, End := y }
    | .error e => .error e
  unmarshalGetSignsRequest := sampleUnmarshalSigns
  unmarshalCheckPierResponse := fun data => .ok { Status := .HAS_MASTER, Address := data }
  marshalBlock := fun b => .ok (b.BlockHeader.Digest ++ "/" ++ b.Body)
  marshalGetBlockHeadersResponse := fun res =>
    .ok (String.intercalate "," (res.BlockHeaders.map (fun h => h.Digest)))
  marshalGetBlocksResponse := fun res =>
    .ok (String.intercalate "," (res.Blocks.map (fun b => b.BlockHeader.Digest ++ "/" ++ b.Body)))
  marshalCertsMessage := fun c => .ok (c.AgencyCert ++ "," ++ c.NodeCert)
  marshalMerkleWrapperSign := fun m =>
    .ok (m.Address ++ "|" ++ m.Signature ++ "|" ++ String.intercalate "," m.CulpritIDs)
  marshalCheckPierResponse := fun r => .ok ("HAS_MASTER:" ++ r.Address)
  marshalTssInfo := fun i => .ok i.Raw
  ledgerGetBlock := fun height full =>
    match blocks.find? (fun b => b.BlockHeader.Number = height) with
    | some b => .ok (if full then b else { b with Body := "" })
    | none => .error (.external "not found")
  ledgerGetBlockSign := fun _ => .error (.external "not found")
  transportSendWithStream := fun _ _ => none
  transportBroadcast := fun _ => none
  transportAsyncSend := fun _ _ => none
  AgencyCertData := "agency"
  NodeCertData := "node"
  EnableTSS := true
  KeyAddress := "0xnode"
  p2pPublicKeyRaw := .ok "p2pkey"
  tssGetTssPubkey := .ok ("0xtss", "tsskey")
  tssGetTssInfo := .ok { Raw := "tssinfo" }
  utilsGetIBTPSign := fun _ _ => .ok ("0xnode", "sig")
  utilsGetIBTPTssSign := fun _ _ signers _ => .ok ("tsssig", signers.drop 2)
  utilsNotifyNotTssParties := fun _ _ _ _ => none
  checkAddress := fun pc a => decide (a ∈ pc)
  writeChan := fun pc _ => pc
  hasPier := fun pm a => (pm.lookup a).isSome
  checkMaster := fun pm a => pm.lookup a == some true
  rmMaster := fun pm a => pm.map (fun p => if p.1 = a then (p.1, false) else p)

/-- The concrete node with a TSS capability that fails. -/
def sampleSwarmTssDown (blocks : List Block) : Swarm SampleMap SampleChan :=
  { sampleSwarm blocks with
    utilsGetIBTPTssSign := fun _ _ _ _ => .error (.external "keysign failed")
    utilsNotifyNotTssParties := fun _ _ _ _ => some (.external "keysign failed") }

/-- A stream from the peer `peer1`. -/
def sampleStream : Stream := { id := 1, RemotePeerID := "peer1" }

/-- A state with an empty pier directory and no pending query. -/
def samplePiers : Piers SampleMap SampleChan := { pierMap := [], pierChan := [] }

/-- A block of the given height. -/
def sampleBlock (height : Nat) : Block :=
  { BlockHeader := { Number := height, Digest := "h" ++ toString height },
    Body := "b" ++ toString height }

end Peermgr

/-! # The service resolver contract -/

namespace Contracts

open Peermgr (Bytes Split)

/-- The error codes of `boltvm` used by the contract. -/
inductive ErrCode
  | BnsErrCode
  deriving DecidableEq, Repr

/-- The value `boltvm.Response`: whether the call succeeded, the error code of
a failure, and the payload. -/
structure Response where
  Ok : Bool
  Code : Option ErrCode
  Result : Bytes
  deriving DecidableEq, Repr

/-- The constructor `boltvm.Success`. -/
def Success (data : Bytes) : Response := { Ok := true, Code := none, Result := data }

/-- The constructor `boltvm.Error`. -/
def Error (code : ErrCode) (msg : String) : Response :=
  { Ok := false, Code := some code, Result := msg }

/-- The record `ServDomainData`. The Go map `Addr` is `none` when nil and
otherwise a list of entries with distinct keys; a nil slice `Dids` is the
empty list. -/
structure ServDomainData where
  Addr : Option (List (Nat × String))
  ServiceName : String
  Des : String
  Dids : List String
  deriving DecidableEq, Repr

/-- The Go map `map[string][]string` of the reverse index, as a list of
entries with distinct keys. -/
abbrev ReverseName := List (String × List String)

/-- An object held by the key-value store of the contract: a record of a
domain name, or the reverse index. -/
inductive Obj
  | servDomain (d : ServDomainData)
  | reverse (m : ReverseName)
  deriving DecidableEq, Repr

/-- The key-value store behind `boltvm.Stub`. -/
abbrev Store := String → Option Obj

/-- The key of the reverse index. -/
def ReverseMap : String := "reverseMap"

/-- The calls of `boltvm.Stub` that the contract makes besides the store:
cross-contract invocation, the two callers, and the addresses of the registry
and of the resolver taken from `constant`. -/
structure Stub where
  CrossInvoke : String → String → List String → Response
  Caller : String
  CurrentCaller : String
  ServiceRegistryContractAddr : String
  ServiceResolverContractAddr : String

/-- How a call of the contract ends: with a response and the store it leaves,
or with a run-time panic. -/
inductive Result
  | done (resp : Response) (st : Store)
  | panic (why : String)

/-- The call `sr.SetObject(key, value)`. -/
def SetObject (st : Store) (key : String) (value : Obj) : Store :=
  fun k => if k = key then some value else st k

/-- The call `sr.Delete(key)`. -/
def Delete (st : Store) (key : String) : Store :=
  fun k => if k = key then none else st k

/-- The read `m[k]` of a Go map, with the zero value for a missing key. -/
def mapGet {κ ν : Type} [DecidableEq κ] (zero : ν) (m : List (κ × ν)) (k : κ) : ν :=
  match m with
  | [] => zero
  | (k1, v1) :: rest => if k1 = k then v1 else mapGet zero rest k

/-- The write `m[k] = v` of a Go map. -/
def mapSet {κ ν : Type} [DecidableEq κ] (m : List (κ × ν)) (k : κ) (v : ν) : List (κ × ν) :=
  match m with
  | [] => [(k, v)]
  | (k1, v1) :: rest => if k1 = k then (k, v) :: rest else (k1, v1) :: mapSet rest k v

/-- Go `strconv.ParseBool`. -/
def ParseBool (str : String) : Option Bool :=
  if str = "1" ∨ str = "t" ∨ str = "T" ∨ str = "true" ∨ str = "TRUE" ∨ str = "True" then
    some true
  else if str = "0" ∨ str = "f" ∨ str = "F" ∨ str = "false" ∨ str = "FALSE" ∨ str = "False" then
    some false
  else none

/-- The helper `isContain`. -/
def isContain (items : List String) (item : String) : Bool :=
  match items with
  | [] => false
  | eachItem :: rest => if eachItem = item then true else isContain rest item

/-- The method `authorised`. -/
def authorised (sr : Stub) (name : String) : Bool :=
  let res := sr.CrossInvoke sr.ServiceRegistryContractAddr "Owner" [name]
  if !res.Ok then false
  else
    let owner := res.Result
    let currentCaller := sr.CurrentCaller
    let res := sr.CrossInvoke sr.ServiceRegistryContractAddr "IsApproved"
      [currentCaller, sr.ServiceResolverContractAddr]
    if !res.Ok then false
    else
      match ParseBool res.Result with
      | none => false
      | some isApprove =>
        let caller := sr.Caller
        decide (owner = caller) || isApprove

/-- The method `getDataByDomain`: the stored record, or the zero value of
`ServDomainData`, whose map is nil, when the key holds no record. An object of
the other shape is taken not to decode into a record. -/
def getDataByDomain (st : Store) (name : String) : ServDomainData :=
  match st name with
  | some (.servDomain d) => d
  | _ => { Addr := none, ServiceName := "", Des := "", Dids := [] }

/-- The statements `reverseName := make(map[string][]string)` and
`sr.GetObject(ReverseMap, &reverseName)`: the stored index, or the empty
map. -/
def getReverseName (st : Store) : ReverseName :=
  match st ReverseMap with
  | some (.reverse m) => m
  | _ => []

/-- The method `setReverseName`. -/
def setReverseName (st : Store) (serviceName : String) (name : String) : Store :=
  let reverseName := getReverseName st
  let reverseNameArr := mapGet [] reverseName serviceName
  let exist := isContain reverseNameArr name
  let reverseNameArr := if !exist then reverseNameArr ++ [name] else reverseNameArr
  let reverseName := mapSet reverseName serviceName reverseNameArr
  SetObject st ReverseMap (.reverse reverseName)

/-- The response of every operation to a caller that is not authorised. -/
def notYours : Response := Error .BnsErrCode "The domain name does not belong to you"

/-- The method `SetServDomainData`. -/
def SetServDomainData (sr : Stub) (name : String) (coinTyp : Nat) (addr : String)
    (serviceName : String) (des : String) (dids : String) (st : Store) : Result :=
  if !authorised sr name then .done notYours st
  else
    let _addr : List (Nat × String) := mapSet [] coinTyp addr
    let didArr := Split dids (Char.ofNat 44)
    let servDomainData : ServDomainData :=
      { Addr := some _addr, ServiceName := serviceName, Des := des, Dids := didArr }
    .done (Success "") (SetObject st name (.servDomain servDomainData))

/-- The method `SetAddr`. The assignment `servDomainData.Addr[coinTyp] = addr`
panics when the map is nil. -/
def SetAddr (sr : Stub) (name : String) (coinTyp : Nat) (addr : String) (st : Store) :
    Result :=
  if !authorised sr name then .done notYours st
  else
    let servDomainData := getDataByDomain st name
    match servDomainData.Addr with
    | none => .panic "assignment to entry in nil map"
    | some m =>
      let servDomainData := { servDomainData with Addr := some (mapSet m coinTyp addr) }
      .done (Success "") (SetObject st name (.servDomain servDomainData))

/-- The method `SetServiceName`. -/
def SetServiceName (sr : Stub) (name : String) (serviceName : String) (reverse : Bool)
    (st : Store) : Result :=
  if !authorised sr name then .done notYours st
  else if serviceName = "" then
    .done (Error .BnsErrCode "The serviceName can not be an empty string") st
  else
    let servDomainData := getDataByDomain st name
    let servDomainData := { servDomainData with ServiceName := serviceName }
    let st := SetObject st name (.servDomain servDomainData)
    let st := if reverse then setReverseName st serviceName name else st
    .done (Success "") st

/-- The method `SetServiceDes`. -/
def SetServiceDes (sr : Stub) (name : String) (des : String) (st : Store) : Result :=
  if !authorised sr name then .done notYours st
  else
    let servDomainData := getDataByDomain st name
    let servDomainData := { servDomainData with Des := des }
    .done (Success "") (SetObject st name (.servDomain servDomainData))

/-- The method `SetDids`. -/
def SetDids (sr : Stub) (name : String) (dids : String) (st : Store) : Result :=
  if !authorised sr name then .done notYours st
  else
    let didArr := Split dids (Char.ofNat 44)
    let servDomainData := getDataByDomain st name
    let servDomainData := { servDomainData with Dids := didArr }
    .done (Success "") (SetObject st name (.servDomain servDomainData))

/-- The method `SetReverse`. -/
def SetReverse (sr : Stub) (serviceName : String) (name : String) (st : Store) : Result :=
  if !authorised sr name then .done notYours st
  else .done (Success "") (setReverseName st serviceName name)

/-- The loop of `DeleteServDomainData` that looks for `name`: the first
position holding it, or `none` for the index `-1`. -/
def findIndex (reverseNameArr : List String) (name : String) : Option Nat :=
  match reverseNameArr with
  | [] => none
  | v :: rest => if v = name then some 0 else (findIndex rest name).map (· + 1)

/-- Go `append(dst, src...)` when the capacity of `dst` suffices: the
elements of `src` are written into the backing array right after the first
`dstLen` elements, and the rest of the backing array is left as it was. The
result is the backing array. -/
def appendInPlace (backing : List String) (dstLen : Nat) (src : List String) : List String :=
  backing.take dstLen ++ src ++ backing.drop (dstLen + src.length)

/-- The method `DeleteServDomainData`. The slice `reverseNameArr` shares its
backing array with the entry of the map. The statement
`reverseNameArr = append(reverseNameArr[:index], reverseNameArr[(index+1):]...)`
writes within the capacity of that array, so it shifts the array in place, and
it assigns the shorter slice to the local variable only: the entry of the map,
which is not assigned, keeps its length and reads the shifted array. -/
def DeleteServDomainData (sr : Stub) (name : String) (st : Store) : Result :=
  if !authorised sr name then .done notYours st
  else
    let nameArr := Split name (Char.ofNat 46)
    if nameArr.length ≠ 3 then
      .done (Error .BnsErrCode "The domain name must be second") st
    else
      let servDomainData := getDataByDomain st name
      let serviceName := servDomainData.ServiceName
      let st := Delete st name
      let reverseName := getReverseName st
      let reverseNameArr := mapGet [] reverseName serviceName
      let index := findIndex reverseNameArr name
      let reverseName :=
        match index with
        | some i =>
          mapSet reverseName serviceName
            (appendInPlace reverseNameArr i (reverseNameArr.drop (i + 1)))
        | none => reverseName
      .done (Success "") (SetObject st ReverseMap (.reverse reverseName))

/-! ## A concrete registry -/

/-- A registry in which `alice` owns every name and nobody is approved. -/
def sampleCrossInvoke (_addr : String) (method : String) (_args : List String) : Response :=
  if method = "Owner" then Success "alice"
  else if method = "IsApproved" then Success "false"
  else Error .BnsErrCode "no such method"

/-- A call made by `caller`. -/
def sampleStub (caller : String) : Stub :=
  { CrossInvoke := sampleCrossInvoke
    Caller := caller
    CurrentCaller := caller
    ServiceRegistryContractAddr := "0xregistry"
    ServiceResolverContractAddr := "0xresolver" }

/-- A store with the records of the two names `a.b.c` and `d.e.f`, both of
service `svc`, and the reverse index listing them in that order. -/
def sampleStore : Store := fun k =>
  if k = "a.b.c" then
    some (.servDomain { Addr := some [(1, "0xa")], ServiceName := "svc", Des := "", Dids := [] })
  else if k = "d.e.f" then
    some (.servDomain { Addr := some [(1, "0xd")], ServiceName := "svc", Des := "", Dids := [] })
  else if k = ReverseMap then some (.reverse [("svc", ["a.b.c", "d.e.f"])])
  else none

/-- The store that a call leaves, when it returns. -/
def Result.store : Result → Option Store
  | .done _ st => some st
  | .panic _ => none

/-- The response of a call, when it returns. -/
def Result.resp : Result → Option Response
  | .done r _ => some r
  | .panic _ => none

/-- Two calls in sequence: the second runs on the store the first leaves; a
panic of the first ends the sequence. -/
def Result.andThen (r : Result) (next : Store → Result) : Result :=
  match r with
  | .done _ st => next st
  | .panic why => .panic why

end Contracts

/-! # Properties of the peer message handlers -/

namespace Peermgr

section ExecLemmas

variable {σ α β : Type}

@[simp] theorem Exec.run_pure (a : α) (st : σ) :
    (Pure.pure a : Exec σ α) st = ⟨[], .ret a st⟩ := rfl

theorem Exec.run_bind (x : Exec σ α) (f : α → Exec σ β) (st : σ) :
    (x >>= f) st = Exec.bind x f st := rfl

@[simp] theorem Exec.run_pure_bind (a : α) (f : α → Exec σ β) (st : σ) :
    ((Pure.pure a : Exec σ α) >>= f) st = f a st := rfl

@[simp] theorem Exec.run_emit_bind (e : Event) (f : Unit → Exec σ β) (st : σ) :
    (Exec.emit e >>= f) st = ⟨e :: (f () st).trace, (f () st).out⟩ := rfl

@[simp] theorem Exec.run_emit (e : Event) (st : σ) :
    (Exec.emit e : Exec σ Unit) st = ⟨[e], .ret () st⟩ := rfl

@[simp] theorem Exec.run_panic_bind (w : String) (f : α → Exec σ β) (st : σ) :
    ((Exec.panic w : Exec σ α) >>= f) st = ⟨[], .panic w⟩ := rfl

@[simp] theorem Exec.run_get_bind (f : σ → Exec σ β) (st : σ) :
    (Exec.get >>= f) st = f st st := rfl

@[simp] theorem Exec.run_set (st1 st : σ) :
    (Exec.set st1 : Exec σ Unit) st = ⟨[], .ret () st1⟩ := rfl

theorem Exec.run_bind_of_ret (x : Exec σ α) (f : α → Exec σ β) (st st1 : σ) (t : List Event)
    (a : α) (h : x st = ⟨t, .ret a st1⟩) :
    (x >>= f) st = ⟨t ++ (f a st1).trace, (f a st1).out⟩ := by
  show Exec.bind x f st = _
  unfold Exec.bind
  rw [h]

theorem Exec.run_bind_of_outOfFuel (x : Exec σ α) (f : α → Exec σ β) (st : σ) (t : List Event)
    (h : x st = ⟨t, .outOfFuel⟩) : (x >>= f) st = ⟨t, .outOfFuel⟩ := by
  show Exec.bind x f st = _
  unfold Exec.bind
  rw [h]

end ExecLemmas

section RangeLemmas

variable {PM PC : Type}

@[simp] theorem run_GetBlock_bind {β : Type} (sw : Swarm PM PC) (h : Nat) (full : Bool)
    (f : Except Error Block → Exec (Piers PM PC) β) (st : Piers PM PC) :
    (GetBlock sw h full >>= f) st =
      ⟨Event.getBlock h full :: (f (sw.ledgerGetBlock h full) st).trace,
        (f (sw.ledgerGetBlock h full) st).out⟩ := rfl

@[simp] theorem run_SendWithStream_bind {β : Type} (sw : Swarm PM PC) (s : Stream) (m : Message)
    (f : Option Error → Exec (Piers PM PC) β) (st : Piers PM PC) :
    (SendWithStream sw s m >>= f) st =
      ⟨Event.sendWithStream s m :: (f (sw.transportSendWithStream s m) st).trace,
        (f (sw.transportSendWithStream s m) st).out⟩ := rfl

/-- When the remaining heights `i, ..., endHeight` all resolve and the counter
cannot wrap, the header loop looks each of them up once, in order, and returns
their headers appended to the slice. -/
theorem headersLoop_ok (sw : Swarm PM PC) (endHeight : Nat) (blk : Nat → Block)
    (hend : endHeight + 1 < 2 ^ 64) :
    ∀ (k fuel i : Nat) (acc : List BlockHeader) (st : Piers PM PC),
      i + k = endHeight + 1 → k < fuel →
      (∀ j, i ≤ j → j ≤ endHeight → sw.ledgerGetBlock j false = .ok (blk j)) →
      headersLoop sw endHeight fuel i acc st =
        ⟨(List.range' i k).map (fun j => Event.getBlock j false),
          .ret (.ok (acc ++ (List.range' i k).map (fun j => (blk j).BlockHeader))) st⟩ := by
  intro k
  induction k with
  | zero =>
    intro fuel i acc st hik hfuel _
    obtain ⟨f, rfl⟩ : ∃ f, fuel = f + 1 := ⟨fuel - 1, by omega⟩
    have hgt : ¬ i ≤ endHeight := by omega
    simp [headersLoop, hgt]
  | succ k ih =>
    intro fuel i acc st hik hfuel hres
    obtain ⟨f, rfl⟩ : ∃ f, fuel = f + 1 := ⟨fuel - 1, by omega⟩
    have hle : i ≤ endHeight := by omega
    have hmod : (i + 1) % 18446744073709551616 = i + 1 := by omega
    have hrec := ih f (i + 1) (acc ++ [(blk i).BlockHeader]) st (by omega) (by omega)
      (fun j h1 h2 => hres j (by omega) h2)
    simp [headersLoop, hle, hres i (le_refl i) hle, hmod, hrec, List.range'_succ]

/-- When the heights `i, ..., m - 1` resolve and height `m` in the range does
not, the header loop looks up `i, ..., m` and returns the error raised at
`m`. -/
theorem headersLoop_err (sw : Swarm PM PC) (endHeight m : Nat) (e : Error)
    (hm : m ≤ endHeight) (hend : endHeight < 2 ^ 64)
    (herr : sw.ledgerGetBlock m false = .error e) :
    ∀ (k fuel i : Nat) (acc : List BlockHeader) (st : Piers PM PC),
      i + k = m → k < fuel →
      (∀ j, i ≤ j → j < m → ∃ b, sw.ledgerGetBlock j false = .ok b) →
      headersLoop sw endHeight fuel i acc st =
        ⟨(List.range' i (k + 1)).map (fun j => Event.getBlock j false),
          .ret (.error (.wrap "get block with height %d from ledger failed: %w" [.num m] e))
            st⟩ := by
  intro k
  induction k with
  | zero =>
    intro fuel i acc st hik hfuel _
    obtain ⟨f, rfl⟩ : ∃ f, fuel = f + 1 := ⟨fuel - 1, by omega⟩
    have him : i = m := by omega
    subst him
    simp [headersLoop, hm, herr]
  | succ k ih =>
    intro fuel i acc st hik hfuel hres
    obtain ⟨f, rfl⟩ : ∃ f, fuel = f + 1 := ⟨fuel - 1, by omega⟩
    have hle : i ≤ endHeight := by omega
    have hmod : (i + 1) % 18446744073709551616 = i + 1 := by omega
    obtain ⟨b, hb⟩ := hres i (le_refl i) (by omega)
    have hrec := ih f (i + 1) (acc ++ [b.BlockHeader]) st (by omega) (by omega)
      (fun j h1 h2 => hres j (by omega) h2)
    simp [headersLoop, hle, hb, hmod, hrec, List.range'_succ]

/-- The block loop on a range whose heights all resolve, as `headersLoop_ok`. -/
theorem blocksLoop_ok (sw : Swarm PM PC) (endHeight : Nat) (blk : Nat → Block)
    (hend : endHeight + 1 < 2 ^ 64) :
    ∀ (k fuel i : Nat) (acc : List Block) (st : Piers PM PC),
      i + k = endHeight + 1 → k < fuel →
      (∀ j, i ≤ j → j ≤ endHeight → sw.ledgerGetBlock j true = .ok (blk j)) →
      blocksLoop sw endHeight fuel i acc st =
        ⟨(List.range' i k).map (fun j => Event.getBlock j true),
          .ret (.ok (acc ++ (List.range' i k).map blk)) st⟩ := by
  intro k
  induction k with
  | zero =>
    intro fuel i acc st hik hfuel _
    obtain ⟨f, rfl⟩ : ∃ f, fuel = f + 1 := ⟨fuel - 1, by omega⟩
    have hgt : ¬ i ≤ endHeight := by omega
    simp [blocksLoop, hgt]
  | succ k ih =>
    intro fuel i acc st hik hfuel hres
    obtain ⟨f, rfl⟩ : ∃ f, fuel = f + 1 := ⟨fuel - 1, by omega⟩
    have hle : i ≤ endHeight := by omega
    have hmod : (i + 1) % 18446744073709551616 = i + 1 := by omega
    have hrec := ih f (i + 1) (acc ++ [blk i]) st (by omega) (by omega)
      (fun j h1 h2 => hres j (by omega) h2)
    simp [blocksLoop, hle, hres i (le_refl i) hle, hmod, hrec, List.range'_succ]

/-- The block loop on a range with a first missing height, as
`headersLoop_err`. -/
theorem blocksLoop_err (sw : Swarm PM PC) (endHeight m : Nat) (e : Error)
    (hm : m ≤ endHeight) (hend : endHeight < 2 ^ 64)
    (herr : sw.ledgerGetBlock m true = .error e) :
    ∀ (k fuel i : Nat) (acc : List Block) (st : Piers PM PC),
      i + k = m → k < fuel →
      (∀ j, i ≤ j → j < m → ∃ b, sw.ledgerGetBlock j true = .ok b) →
      blocksLoop sw endHeight fuel i acc st =
        ⟨(List.range' i (k + 1)).map (fun j => Event.getBlock j true),
          .ret (.error (.wrap "get block with height %d from ledger failed: %w" [.num m] e))
            st⟩ := by
  intro k
  induction k with
  | zero =>
    intro fuel i acc st hik hfuel _
    obtain ⟨f, rfl⟩ : ∃ f, fuel = f + 1 := ⟨fuel - 1, by omega⟩
    have him : i = m := by omega
    subst him
    simp [blocksLoop, hm, herr]
  | succ k ih =>
    intro fuel i acc st hik hfuel hres
    obtain ⟨f, rfl⟩ : ∃ f, fuel = f + 1 := ⟨fuel - 1, by omega⟩
    have hle : i ≤ endHeight := by omega
    have hmod : (i + 1) % 18446744073709551616 = i + 1 := by omega
    obtain ⟨b, hb⟩ := hres i (le_refl i) (by omega)
    have hrec := ih f (i + 1) (acc ++ [b]) st (by omega) (by omega)
      (fun j h1 h2 => hres j (by omega) h2)
    simp [blocksLoop, hle, hb, hmod, hrec, List.range'_succ]

/-- A height that does not resolve yields an error value. -/
theorem error_of_not_resolves (sw : Swarm PM PC) (full : Bool) (j : Nat)
    (h : resolves sw full j = false) : ∃ e, sw.ledgerGetBlock j full = .error e := by
  unfold resolves at h
  cases hj : sw.ledgerGetBlock j full with
  | error e => exact ⟨e, rfl⟩
  | ok b => rw [hj] at h; cases h

/-- A height that resolves yields a block. -/
theorem block_of_resolves (sw : Swarm PM PC) (full : Bool) (j : Nat)
    (h : resolves sw full j = true) : ∃ b, sw.ledgerGetBlock j full = .ok b := by
  unfold resolves at h
  cases hj : sw.ledgerGetBlock j full with
  | error e => rw [hj] at h; cases h
  | ok b => exact ⟨b, rfl⟩

/-- Among the heights of a range of which one does not resolve there is a
smallest one. -/
theorem exists_first_missing (sw : Swarm PM PC) (full : Bool) (lo hi : Nat)
    (hex : ∃ j, lo ≤ j ∧ j ≤ hi ∧ resolves sw full j = false) :
    ∃ m, lo ≤ m ∧ m ≤ hi ∧ resolves sw full m = false ∧
      ∀ j, lo ≤ j → j < m → resolves sw full j = true := by
  classical
  refine ⟨Nat.find hex, (Nat.find_spec hex).1, (Nat.find_spec hex).2.1,
    (Nat.find_spec hex).2.2, ?_⟩
  intro j hlo hlt
  have hmin := Nat.find_min hex hlt
  have hhi : j ≤ hi := le_trans (le_of_lt hlt) (Nat.find_spec hex).2.1
  cases hr : resolves sw full j with
  | true => rfl
  | false => exact absurd ⟨hlo, hhi, hr⟩ hmin

/-- Ledger lookups put nothing on the network. -/
theorem filter_isOutbound_getBlock (full : Bool) (l : List Nat) :
    (l.map (fun j => Event.getBlock j full)).filter Event.isOutbound = [] := by
  induction l with
  | nil => rfl
  | cons a l ih => simp [Event.isOutbound]

/-- On a range `start ≤ end` below the largest 64-bit height whose heights all
resolve, `handleGetBlockHeadersPack` looks up each height once in ascending
order and sends one `GET_BLOCK_HEADERS_ACK` on the stream, carrying the
encoding of the `end - start + 1` headers in that order; it returns the
outcome of the send. -/
theorem handleGetBlockHeadersPack_reply (sw : Swarm PM PC) (fuel : Nat) (s : Stream)
    (msg : Message) (st : Piers PM PC) (req : GetBlockHeadersRequest) (blk : Nat → Block)
    (v : Bytes)
    (hreq : sw.unmarshalGetBlockHeadersRequest msg.Data = .ok req)
    (hle : req.Start ≤ req.End) (hend : req.End < 2 ^ 64 - 1)
    (hfuel : req.End - req.Start + 2 ≤ fuel)
    (hres : ∀ j, req.Start ≤ j → j ≤ req.End → sw.ledgerGetBlock j false = .ok (blk j))
    (hv : sw.marshalGetBlockHeadersResponse
      { BlockHeaders := (List.range' req.Start (req.End - req.Start + 1)).map
          (fun j => (blk j).BlockHeader) } = .ok v)
    (hsend : sw.transportSendWithStream s { Typ := .GET_BLOCK_HEADERS_ACK, Data := v } = none) :
    handleGetBlockHeadersPack sw fuel s msg st =
      ⟨(List.range' req.Start (req.End - req.Start + 1)).map (fun j => Event.getBlock j false)
          ++ [Event.sendWithStream s { Typ := .GET_BLOCK_HEADERS_ACK, Data := v }],
        .ret none st⟩ := by
  have hloop := headersLoop_ok sw req.End blk (by omega) (req.End - req.Start + 1) fuel
    req.Start [] st (by omega) (by omega) hres
  unfold handleGetBlockHeadersPack
  simp only [hreq]
  rw [Exec.run_bind_of_ret _ _ _ _ _ _ hloop]
  simp [hv, hsend]

/-- The statement of `handleGetBlockHeadersPack_reply` for
`handleGetBlocksPack` and full blocks. -/
theorem handleGetBlocksPack_reply (sw : Swarm PM PC) (fuel : Nat) (s : Stream)
    (msg : Message) (st : Piers PM PC) (req : GetBlocksRequest) (blk : Nat → Block)
    (v : Bytes)
    (hreq : sw.unmarshalGetBlocksRequest msg.Data = .ok req)
    (hle : req.Start ≤ req.End) (hend : req.End < 2 ^ 64 - 1)
    (hfuel : req.End - req.Start + 2 ≤ fuel)
    (hres : ∀ j, req.Start ≤ j → j ≤ req.End → sw.ledgerGetBlock j true = .ok (blk j))
    (hv : sw.marshalGetBlocksResponse
      { Blocks := (List.range' req.Start (req.End - req.Start + 1)).map blk } = .ok v)
    (hsend : sw.transportSendWithStream s { Typ := .GET_BLOCKS_ACK, Data := v } = none) :
    handleGetBlocksPack sw fuel s msg st =
      ⟨(List.range' req.Start (req.End - req.Start + 1)).map (fun j => Event.getBlock j true)
          ++ [Event.sendWithStream s { Typ := .GET_BLOCKS_ACK, Data := v }],
        .ret none st⟩ := by
  have hloop := blocksLoop_ok sw req.End blk (by omega) (req.End - req.Start + 1) fuel
    req.Start [] st (by omega) (by omega) hres
  unfold handleGetBlocksPack
  simp only [hreq]
  rw [Exec.run_bind_of_ret _ _ _ _ _ _ hloop]
  simp [hv, hsend]

/-- With `end = 2 ^ 64 - 1` and a ledger that resolves every 64-bit height the
header loop never leaves: whatever the fuel, it runs out. -/
theorem headersLoop_never_returns (sw : Swarm PM PC)
    (hres : ∀ j, j < 2 ^ 64 → resolves sw false j = true) :
    ∀ (fuel i : Nat) (acc : List BlockHeader) (st : Piers PM PC), i < 2 ^ 64 →
      (headersLoop sw (2 ^ 64 - 1) fuel i acc st).out = .outOfFuel := by
  intro fuel
  induction fuel with
  | zero => intro i acc st _; rfl
  | succ f ih =>
    intro i acc st hi
    obtain ⟨b, hb⟩ := block_of_resolves sw false i (hres i hi)
    have hle : i ≤ 18446744073709551615 := by omega
    have hlt : (i + 1) % 18446744073709551616 < 2 ^ 64 := by omega
    have hrec := ih ((i + 1) % 18446744073709551616) (acc ++ [b.BlockHeader]) st hlt
    simp only [Nat.reducePow, Nat.reduceSub] at hrec
    simp [headersLoop, hle, hb, hrec]

/-- The run of the range handlers on the single height `2 ^ 64 - 1`, over a
ledger that resolves that height and not height 0, with fuel for two tests of
the loop condition or more: the height is looked up, the 64-bit counter wraps
to height 0, the lookup there fails, and the handler returns that error. -/
theorem max_height_range_run (fuel : Nat) :
    handleGetBlockHeadersPack (sampleSwarm [sampleBlock (2 ^ 64 - 1)]) (fuel + 2) sampleStream
        { Typ := .GET_BLOCK_HEADERS, Data := "18446744073709551615,18446744073709551615" }
        samplePiers =
      ⟨[.getBlock (2 ^ 64 - 1) false, .getBlock 0 false],
        .ret (some (.wrap "get block with height %d from ledger failed: %w" [.num 0]
          (.external "not found"))) samplePiers⟩ ∧
    handleGetBlocksPack (sampleSwarm [sampleBlock (2 ^ 64 - 1)]) (fuel + 2) sampleStream
        { Typ := .GET_BLOCKS, Data := "18446744073709551615,18446744073709551615" }
        samplePiers =
      ⟨[.getBlock (2 ^ 64 - 1) true, .getBlock 0 true],
        .ret (some (.wrap "get block with height %d from ledger failed: %w" [.num 0]
          (.external "not found"))) samplePiers⟩ := by
  have hreq : sampleUnmarshalRange "18446744073709551615,18446744073709551615" =
      .ok (2 ^ 64 - 1, 2 ^ 64 - 1) := by decide
  have h1 : ∀ full, (sampleSwarm [sampleBlock (2 ^ 64 - 1)]).ledgerGetBlock (2 ^ 64 - 1) full =
      .ok (if full then sampleBlock (2 ^ 64 - 1)
        else { sampleBlock (2 ^ 64 - 1) with Body := "" }) := by
    intro full; cases full <;> decide
  have h0 : ∀ full, (sampleSwarm [sampleBlock (2 ^ 64 - 1)]).ledgerGetBlock 0 full =
      .error (.external "not found") := by
    intro full; cases full <;> decide
  have hu1 : (sampleSwarm [sampleBlock (2 ^ 64 - 1)]).unmarshalGetBlockHeadersRequest
      "18446744073709551615,18446744073709551615" =
        .ok { Start := 2 ^ 64 - 1, End := 2 ^ 64 - 1 } := by
    simp only [sampleSwarm, hreq]
  have hu2 : (sampleSwarm [sampleBlock (2 ^ 64 - 1)]).unmarshalGetBlocksRequest
      "18446744073709551615,18446744073709551615" =
        .ok { Start := 2 ^ 64 - 1, End := 2 ^ 64 - 1 } := by
    simp only [sampleSwarm, hreq]
  constructor
  · unfold handleGetBlockHeadersPack
    simp only [hu1]
    have hloop : headersLoop (sampleSwarm [sampleBlock (2 ^ 64 - 1)]) (2 ^ 64 - 1) (fuel + 2)
        (2 ^ 64 - 1) [] samplePiers =
          ⟨[.getBlock (2 ^ 64 - 1) false, .getBlock 0 false],
            .ret (.error (.wrap "get block with height %d from ledger failed: %w" [.num 0]
              (.external "not found"))) samplePiers⟩ := by
      have h1f := h1 false
      have h0f := h0 false
      simp only [Nat.reducePow, Nat.reduceSub] at h1f h0f ⊢
      simp [headersLoop, h1f, h0f]
    rw [Exec.run_bind_of_ret _ _ _ _ _ _ hloop]
    simp
  · unfold handleGetBlocksPack
    simp only [hu2]
    have hloop : blocksLoop (sampleSwarm [sampleBlock (2 ^ 64 - 1)]) (2 ^ 64 - 1) (fuel + 2)
        (2 ^ 64 - 1) [] samplePiers =
          ⟨[.getBlock (2 ^ 64 - 1) true, .getBlock 0 true],
            .ret (.error (.wrap "get block with height %d from ledger failed: %w" [.num 0]
              (.external "not found"))) samplePiers⟩ := by
      have h1f := h1 true
      have h0f := h0 true
      simp only [Nat.reducePow, Nat.reduceSub] at h1f h0f ⊢
      simp [blocksLoop, h1f, h0f]
    rw [Exec.run_bind_of_ret _ _ _ _ _ _ hloop]
    simp

/-- C1, refuted as stated. The request decodes to `start = end = 2 ^ 64 - 1`,
two 64-bit heights with `start ≤ end`, and the ledger resolves the one height
of the range, for headers and for full blocks. Whatever the fuel, neither
range handler puts a message on the network: no ack is sent. -/
theorem range_ending_at_max_height_gets_no_reply :
    (sampleSwarm [sampleBlock (2 ^ 64 - 1)]).unmarshalGetBlockHeadersRequest
        "18446744073709551615,18446744073709551615" =
      .ok { Start := 2 ^ 64 - 1, End := 2 ^ 64 - 1 } ∧
    (sampleSwarm [sampleBlock (2 ^ 64 - 1)]).unmarshalGetBlocksRequest
        "18446744073709551615,18446744073709551615" =
      .ok { Start := 2 ^ 64 - 1, End := 2 ^ 64 - 1 } ∧
    resolves (sampleSwarm [sampleBlock (2 ^ 64 - 1)]) false (2 ^ 64 - 1) = true ∧
    resolves (sampleSwarm [sampleBlock (2 ^ 64 - 1)]) true (2 ^ 64 - 1) = true ∧
    (¬ ∃ fuel e,
      e ∈ (handleGetBlockHeadersPack (sampleSwarm [sampleBlock (2 ^ 64 - 1)]) fuel sampleStream
        { Typ := .GET_BLOCK_HEADERS, Data := "18446744073709551615,18446744073709551615" }
        samplePiers).trace ∧ e.isOutbound = true) ∧
    (¬ ∃ fuel e,
      e ∈ (handleGetBlocksPack (sampleSwarm [sampleBlock (2 ^ 64 - 1)]) fuel sampleStream
        { Typ := .GET_BLOCKS, Data := "18446744073709551615,18446744073709551615" }
        samplePiers).trace ∧ e.isOutbound = true) := by
  refine ⟨by decide, by decide, by decide, by decide, ?_, ?_⟩
  · rintro ⟨fuel, e, he, hout⟩
    match fuel with
    | 0 =>
      have h : (handleGetBlockHeadersPack (sampleSwarm [sampleBlock (2 ^ 64 - 1)]) 0 sampleStream
          { Typ := .GET_BLOCK_HEADERS, Data := "18446744073709551615,18446744073709551615" }
          samplePiers).trace = [] := by decide
      rw [h] at he
      cases he
    | 1 =>
      have h : (handleGetBlockHeadersPack (sampleSwarm [sampleBlock (2 ^ 64 - 1)]) 1 sampleStream
          { Typ := .GET_BLOCK_HEADERS, Data := "18446744073709551615,18446744073709551615" }
          samplePiers).trace = [.getBlock (2 ^ 64 - 1) false] := by decide
      rw [h] at he
      simp at he
      subst he
      simp [Event.isOutbound] at hout
    | n + 2 =>
      rw [(max_height_range_run n).1] at he
      simp at he
      rcases he with he | he <;> subst he <;> simp [Event.isOutbound] at hout
  · rintro ⟨fuel, e, he, hout⟩
    match fuel with
    | 0 =>
      have h : (handleGetBlocksPack (sampleSwarm [sampleBlock (2 ^ 64 - 1)]) 0 sampleStream
          { Typ := .GET_BLOCKS, Data := "18446744073709551615,18446744073709551615" }
          samplePiers).trace = [] := by decide
      rw [h] at he
      cases he
    | 1 =>
      have h : (handleGetBlocksPack (sampleSwarm [sampleBlock (2 ^ 64 - 1)]) 1 sampleStream
          { Typ := .GET_BLOCKS, Data := "18446744073709551615,18446744073709551615" }
          samplePiers).trace = [.getBlock (2 ^ 64 - 1) true] := by decide
      rw [h] at he
      simp at he
      subst he
      simp [Event.isOutbound] at hout
    | n + 2 =>
      rw [(max_height_range_run n).2] at he
      simp at he
      rcases he with he | he <;> subst he <;> simp [Event.isOutbound] at hout

/-- C1, amended. For 64-bit heights `start ≤ end` with `end` below the largest
64-bit height, a ledger that resolves each height of `[start, end]`, and fuel
for the range: `handleGetBlockHeadersPack` (resp. `handleGetBlocksPack`) looks
each height up once, in ascending order, and then performs one more effect,
the send on the originating stream of a `GET_BLOCK_HEADERS_ACK` (resp.
`GET_BLOCKS_ACK`) that encodes a list of exactly `end - start + 1` entries
whose entry at position `i` is the header (resp. the full block) the ledger
returns for height `start + i`; when the codec encodes that list and the send
succeeds it returns no error. -/
theorem range_reply_below_max_height (sw : Swarm PM PC) (fuel : Nat) (s : Stream)
    (msg : Message) (st : Piers PM PC) (blk : Nat → Block) :
    (∀ req v, sw.unmarshalGetBlockHeadersRequest msg.Data = .ok req →
      req.Start ≤ req.End → req.End < 2 ^ 64 - 1 → req.End - req.Start + 2 ≤ fuel →
      (∀ j, req.Start ≤ j → j ≤ req.End → sw.ledgerGetBlock j false = .ok (blk j)) →
      sw.marshalGetBlockHeadersResponse
        { BlockHeaders := (List.range' req.Start (req.End - req.Start + 1)).map
            (fun j => (blk j).BlockHeader) } = .ok v →
      sw.transportSendWithStream s { Typ := .GET_BLOCK_HEADERS_ACK, Data := v } = none →
      handleGetBlockHeadersPack sw fuel s msg st =
          ⟨(List.range' req.Start (req.End - req.Start + 1)).map
              (fun j => Event.getBlock j false)
            ++ [Event.sendWithStream s { Typ := .GET_BLOCK_HEADERS_ACK, Data := v }],
            .ret none st⟩ ∧
        ((List.range' req.Start (req.End - req.Start + 1)).map
          (fun j => (blk j).BlockHeader)).length = req.End - req.Start + 1 ∧
        ∀ i, i < req.End - req.Start + 1 →
          ((List.range' req.Start (req.End - req.Start + 1)).map
            (fun j => (blk j).BlockHeader)).get? i = some (blk (req.Start + i)).BlockHeader) ∧
    (∀ req v, sw.unmarshalGetBlocksRequest msg.Data = .ok req →
      req.Start ≤ req.End → req.End < 2 ^ 64 - 1 → req.End - req.Start + 2 ≤ fuel →
      (∀ j, req.Start ≤ j → j ≤ req.End → sw.ledgerGetBlock j true = .ok (blk j)) →
      sw.marshalGetBlocksResponse
        { Blocks := (List.range' req.Start (req.End - req.Start + 1)).map blk } = .ok v →
      sw.transportSendWithStream s { Typ := .GET_BLOCKS_ACK, Data := v } = none →
      handleGetBlocksPack sw fuel s msg st =
          ⟨(List.range' req.Start (req.End - req.Start + 1)).map
              (fun j => Event.getBlock j true)
            ++ [Event.sendWithStream s { Typ := .GET_BLOCKS_ACK, Data := v }],
            .ret none st⟩ ∧
        ((List.range' req.Start (req.End - req.Start + 1)).map blk).length
          = req.End - req.Start + 1 ∧
        ∀ i, i < req.End - req.Start + 1 →
          ((List.range' req.Start (req.End - req.Start + 1)).map blk).get? i
            = some (blk (req.Start + i))) := by
  constructor
  · intro req v hreq hle hend hfuel hres hv hsend
    refine ⟨handleGetBlockHeadersPack_reply sw fuel s msg st req blk v hreq hle hend hfuel hres
      hv hsend, by simp, ?_⟩
    intro i hi
    simp [List.getElem?_range' _ _ hi]
  · intro req v hreq hle hend hfuel hres hv hsend
    refine ⟨handleGetBlocksPack_reply sw fuel s msg st req blk v hreq hle hend hfuel hres
      hv hsend, by simp, ?_⟩
    intro i hi
    simp [List.getElem?_range' _ _ hi]

/-- Witness of the amended C1: the range 1 to 3 on a ledger holding the
heights 1, 2 and 3. -/
theorem range_reply_below_max_height_witness :
    handleGetBlockHeadersPack (sampleSwarm [sampleBlock 1, sampleBlock 2, sampleBlock 3]) 4
        sampleStream { Typ := .GET_BLOCK_HEADERS, Data := "1,3" } samplePiers =
      ⟨[Event.getBlock 1 false, Event.getBlock 2 false, Event.getBlock 3 false,
        Event.sendWithStream sampleStream { Typ := .GET_BLOCK_HEADERS_ACK, Data := "h1,h2,h3" }],
        .ret none samplePiers⟩ ∧
    handleGetBlocksPack (sampleSwarm [sampleBlock 1, sampleBlock 2, sampleBlock 3]) 4
        sampleStream { Typ := .GET_BLOCKS, Data := "1,3" } samplePiers =
      ⟨[Event.getBlock 1 true, Event.getBlock 2 true, Event.getBlock 3 true,
        Event.sendWithStream sampleStream
          { Typ := .GET_BLOCKS_ACK, Data := "h1/b1,h2/b2,h3/b3" }],
        .ret none samplePiers⟩ :=
  ⟨((range_reply_below_max_height (sampleSwarm [sampleBlock 1, sampleBlock 2, sampleBlock 3]) 4
      sampleStream { Typ := .GET_BLOCK_HEADERS, Data := "1,3" } samplePiers
      (fun j => { sampleBlock j with Body := "" })).1
      { Start := 1, End := 3 } "h1,h2,h3" (by decide) (by decide) (by decide) (by decide)
      (by intro j h1 h2; interval_cases j <;> decide) (by decide) (by decide)).1,
   ((range_reply_below_max_height (sampleSwarm [sampleBlock 1, sampleBlock 2, sampleBlock 3]) 4
      sampleStream { Typ := .GET_BLOCKS, Data := "1,3" } samplePiers sampleBlock).2
      { Start := 1, End := 3 } "h1/b1,h2/b2,h3/b3" (by decide) (by decide) (by decide)
      (by decide) (by intro j h1 h2; interval_cases j <;> decide) (by decide) (by decide)).1⟩

/-- C2. A range request in which some height of `[start, end]` does not
resolve: both range handlers, given fuel for the range, stop at the smallest
missing height `m` of the range, having looked up `start, ..., m` and nothing
else; they return the error raised for `m` and put no message on the network,
neither a partial range nor an ack. -/
theorem range_with_missing_height_aborts (sw : Swarm PM PC) (fuel : Nat) (s : Stream)
    (msg : Message) (st : Piers PM PC) :
    (∀ req, sw.unmarshalGetBlockHeadersRequest msg.Data = .ok req → req.End < 2 ^ 64 →
      req.End - req.Start + 1 ≤ fuel →
      (∃ j, req.Start ≤ j ∧ j ≤ req.End ∧ resolves sw false j = false) →
      ∃ m e, req.Start ≤ m ∧ m ≤ req.End ∧ sw.ledgerGetBlock m false = .error e ∧
        (∀ j, req.Start ≤ j → j < m → resolves sw false j = true) ∧
        handleGetBlockHeadersPack sw fuel s msg st =
          ⟨(List.range' req.Start (m - req.Start + 1)).map (fun j => Event.getBlock j false),
            .ret (some (.wrap "get block with height %d from ledger failed: %w" [.num m] e))
              st⟩ ∧
        (handleGetBlockHeadersPack sw fuel s msg st).trace.filter Event.isOutbound = []) ∧
    (∀ req, sw.unmarshalGetBlocksRequest msg.Data = .ok req → req.End < 2 ^ 64 →
      req.End - req.Start + 1 ≤ fuel →
      (∃ j, req.Start ≤ j ∧ j ≤ req.End ∧ resolves sw true j = false) →
      ∃ m e, req.Start ≤ m ∧ m ≤ req.End ∧ sw.ledgerGetBlock m true = .error e ∧
        (∀ j, req.Start ≤ j → j < m → resolves sw true j = true) ∧
        handleGetBlocksPack sw fuel s msg st =
          ⟨(List.range' req.Start (m - req.Start + 1)).map (fun j => Event.getBlock j true),
            .ret (some (.wrap "get block with height %d from ledger failed: %w" [.num m] e))
              st⟩ ∧
        (handleGetBlocksPack sw fuel s msg st).trace.filter Event.isOutbound = []) := by
  constructor
  · intro req hreq hend hfuel hex
    obtain ⟨m, hlo, hhi, hmiss, hbelow⟩ := exists_first_missing sw false req.Start req.End hex
    obtain ⟨e, he⟩ := error_of_not_resolves sw false m hmiss
    have hloop := headersLoop_err sw req.End m e hhi hend he (m - req.Start) fuel req.Start []
      st (by omega) (by omega) (fun j h1 h2 => block_of_resolves sw false j (hbelow j h1 h2))
    have hrun : handleGetBlockHeadersPack sw fuel s msg st =
        ⟨(List.range' req.Start (m - req.Start + 1)).map (fun j => Event.getBlock j false),
          .ret (some (.wrap "get block with height %d from ledger failed: %w" [.num m] e))
            st⟩ := by
      unfold handleGetBlockHeadersPack
      simp only [hreq]
      rw [Exec.run_bind_of_ret _ _ _ _ _ _ hloop]
      simp
    refine ⟨m, e, hlo, hhi, he, hbelow, hrun, ?_⟩
    rw [hrun]
    exact filter_isOutbound_getBlock false _
  · intro req hreq hend hfuel hex
    obtain ⟨m, hlo, hhi, hmiss, hbelow⟩ := exists_first_missing sw true req.Start req.End hex
    obtain ⟨e, he⟩ := error_of_not_resolves sw true m hmiss
    have hloop := blocksLoop_err sw req.End m e hhi hend he (m - req.Start) fuel req.Start []
      st (by omega) (by omega) (fun j h1 h2 => block_of_resolves sw true j (hbelow j h1 h2))
    have hrun : handleGetBlocksPack sw fuel s msg st =
        ⟨(List.range' req.Start (m - req.Start + 1)).map (fun j => Event.getBlock j true),
          .ret (some (.wrap "get block with height %d from ledger failed: %w" [.num m] e))
            st⟩ := by
      unfold handleGetBlocksPack
      simp only [hreq]
      rw [Exec.run_bind_of_ret _ _ _ _ _ _ hloop]
      simp
    refine ⟨m, e, hlo, hhi, he, hbelow, hrun, ?_⟩
    rw [hrun]
    exact filter_isOutbound_getBlock true _

/-- Witness of C2: the range 1 to 4 on a ledger that holds the heights 1, 2
and 4 but not 3. -/
theorem range_with_missing_height_aborts_witness :
    (∃ m e, 1 ≤ m ∧ m ≤ 4 ∧
      (sampleSwarm [sampleBlock 1, sampleBlock 2, sampleBlock 4]).ledgerGetBlock m false
        = .error e ∧
      (∀ j, 1 ≤ j → j < m →
        resolves (sampleSwarm [sampleBlock 1, sampleBlock 2, sampleBlock 4]) false j = true) ∧
      handleGetBlockHeadersPack (sampleSwarm [sampleBlock 1, sampleBlock 2, sampleBlock 4]) 4
          sampleStream { Typ := .GET_BLOCK_HEADERS, Data := "1,4" } samplePiers =
        ⟨(List.range' 1 (m - 1 + 1)).map (fun j => Event.getBlock j false),
          .ret (some (.wrap "get block with height %d from ledger failed: %w" [.num m] e))
            samplePiers⟩ ∧
      (handleGetBlockHeadersPack (sampleSwarm [sampleBlock 1, sampleBlock 2, sampleBlock 4]) 4
          sampleStream { Typ := .GET_BLOCK_HEADERS, Data := "1,4" }
          samplePiers).trace.filter Event.isOutbound = []) ∧
    (∃ m e, 1 ≤ m ∧ m ≤ 4 ∧
      (sampleSwarm [sampleBlock 1, sampleBlock 2, sampleBlock 4]).ledgerGetBlock m true
        = .error e ∧
      (∀ j, 1 ≤ j → j < m →
        resolves (sampleSwarm [sampleBlock 1, sampleBlock 2, sampleBlock 4]) true j = true) ∧
      handleGetBlocksPack (sampleSwarm [sampleBlock 1, sampleBlock 2, sampleBlock 4]) 4
          sampleStream { Typ := .GET_BLOCKS, Data := "1,4" } samplePiers =
        ⟨(List.range' 1 (m - 1 + 1)).map (fun j => Event.getBlock j true),
          .ret (some (.wrap "get block with height %d from ledger failed: %w" [.num m] e))
            samplePiers⟩ ∧
      (handleGetBlocksPack (sampleSwarm [sampleBlock 1, sampleBlock 2, sampleBlock 4]) 4
          sampleStream { Typ := .GET_BLOCKS, Data := "1,4" }
          samplePiers).trace.filter Event.isOutbound = []) :=
  ⟨(range_with_missing_height_aborts (sampleSwarm [sampleBlock 1, sampleBlock 2, sampleBlock 4])
      4 sampleStream { Typ := .GET_BLOCK_HEADERS, Data := "1,4" } samplePiers).1
      { Start := 1, End := 4 } (by decide) (by decide) (by decide)
      ⟨3, by decide, by decide, by decide⟩,
   (range_with_missing_height_aborts (sampleSwarm [sampleBlock 1, sampleBlock 2, sampleBlock 4])
      4 sampleStream { Typ := .GET_BLOCKS, Data := "1,4" } samplePiers).2
      { Start := 1, End := 4 } (by decide) (by decide) (by decide)
      ⟨3, by decide, by decide, by decide⟩⟩

/-- C3. A range request with `start > end`: whatever the ledger holds, both
range handlers, given fuel for one test of the loop condition, look nothing up
and perform a single effect, the send on the stream of an ack whose payload
encodes the empty list; when the codec encodes that list and the send
succeeds they return no error. -/
theorem empty_range_gets_empty_ack (sw : Swarm PM PC) (fuel : Nat) (s : Stream)
    (msg : Message) (st : Piers PM PC) (hfuel : 0 < fuel) :
    (∀ req v, sw.unmarshalGetBlockHeadersRequest msg.Data = .ok req → req.End < req.Start →
      sw.marshalGetBlockHeadersResponse { BlockHeaders := [] } = .ok v →
      sw.transportSendWithStream s { Typ := .GET_BLOCK_HEADERS_ACK, Data := v } = none →
      handleGetBlockHeadersPack sw fuel s msg st =
        ⟨[Event.sendWithStream s { Typ := .GET_BLOCK_HEADERS_ACK, Data := v }],
          .ret none st⟩) ∧
    (∀ req v, sw.unmarshalGetBlocksRequest msg.Data = .ok req → req.End < req.Start →
      sw.marshalGetBlocksResponse { Blocks := [] } = .ok v →
      sw.transportSendWithStream s { Typ := .GET_BLOCKS_ACK, Data := v } = none →
      handleGetBlocksPack sw fuel s msg st =
        ⟨[Event.sendWithStream s { Typ := .GET_BLOCKS_ACK, Data := v }], .ret none st⟩) := by
  obtain ⟨f, rfl⟩ : ∃ f, fuel = f + 1 := ⟨fuel - 1, by omega⟩
  constructor
  · intro req v hreq hlt hv hsend
    have hgt : ¬ req.Start ≤ req.End := by omega
    have hloop : headersLoop sw req.End (f + 1) req.Start [] st = ⟨[], .ret (.ok []) st⟩ := by
      simp [headersLoop, hgt]
    unfold handleGetBlockHeadersPack
    simp only [hreq]
    rw [Exec.run_bind_of_ret _ _ _ _ _ _ hloop]
    simp [hv, hsend]
  · intro req v hreq hlt hv hsend
    have hgt : ¬ req.Start ≤ req.End := by omega
    have hloop : blocksLoop sw req.End (f + 1) req.Start [] st = ⟨[], .ret (.ok []) st⟩ := by
      simp [blocksLoop, hgt]
    unfold handleGetBlocksPack
    simp only [hreq]
    rw [Exec.run_bind_of_ret _ _ _ _ _ _ hloop]
    simp [hv, hsend]

/-- Witness of C3: the range 5 to 2 on an empty ledger. -/
theorem empty_range_gets_empty_ack_witness :
    handleGetBlockHeadersPack (sampleSwarm []) 1 sampleStream
        { Typ := .GET_BLOCK_HEADERS, Data := "5,2" } samplePiers =
      ⟨[Event.sendWithStream sampleStream { Typ := .GET_BLOCK_HEADERS_ACK, Data := "" }],
        .ret none samplePiers⟩ ∧
    handleGetBlocksPack (sampleSwarm []) 1 sampleStream
        { Typ := .GET_BLOCKS, Data := "5,2" } samplePiers =
      ⟨[Event.sendWithStream sampleStream { Typ := .GET_BLOCKS_ACK, Data := "" }],
        .ret none samplePiers⟩ :=
  ⟨(empty_range_gets_empty_ack (sampleSwarm []) 1 sampleStream
      { Typ := .GET_BLOCK_HEADERS, Data := "5,2" } samplePiers (by decide)).1
      { Start := 5, End := 2 } "" (by decide) (by decide) (by decide) (by decide),
   (empty_range_gets_empty_ack (sampleSwarm []) 1 sampleStream
      { Typ := .GET_BLOCKS, Data := "5,2" } samplePiers (by decide)).2
      { Start := 5, End := 2 } "" (by decide) (by decide) (by decide) (by decide)⟩

end RangeLemmas

section SignLemmas

variable {PM PC : Type}

@[simp] theorem run_Broadcast_bind {β : Type} (sw : Swarm PM PC) (m : Message)
    (f : Option Error → Exec (Piers PM PC) β) (st : Piers PM PC) :
    (Broadcast sw m >>= f) st =
      ⟨Event.broadcast m :: (f (sw.transportBroadcast m) st).trace,
        (f (sw.transportBroadcast m) st).out⟩ := rfl

@[simp] theorem run_AsyncSend_bind {β : Type} (sw : Swarm PM PC) (peer : String) (data : Bytes)
    (f : Option Error → Exec (Piers PM PC) β) (st : Piers PM PC) :
    (AsyncSend sw peer data >>= f) st =
      ⟨Event.asyncSend peer data :: (f (sw.transportAsyncSend peer data) st).trace,
        (f (sw.transportAsyncSend peer data) st).out⟩ := rfl

theorem run_index_bind_of_some {σ β : Type} (xs : List String) (i : Nat) (x : String)
    (f : String → Exec σ β) (st : σ) (h : xs.get? i = some x) :
    (index xs i >>= f) st = f x st := by
  unfold index
  rw [h]
  rfl

theorem run_index_bind_of_none {σ β : Type} (xs : List String) (i : Nat)
    (f : String → Exec σ β) (st : σ) (h : xs.get? i = none) :
    (index xs i >>= f) st = ⟨[], .panic "index out of range"⟩ := by
  unfold index
  rw [h]
  rfl

/-- A sign request whose extra has a single hyphen-separated token makes
`handleFetchIBTPTssSignMessage` panic on `signInfo[1]`, after the debug line
and before the TSS capability is called. -/
theorem handleFetchIBTPTssSignMessage_panics_of_one_token (sw : Swarm PM PC) (s : Stream)
    (data : Bytes) (isReq : Bool) (st : Piers PM PC) (req : GetSignsRequest) (p : String)
    (hreq : sw.unmarshalGetSignsRequest data = .ok req)
    (hsplit : Split req.Extra (Char.ofNat 45) = [p]) :
    handleFetchIBTPTssSignMessage sw s data isReq st =
      ⟨[.logDebug "handleFetchIBTPTssSignMessage, signers: %s" [.str p]],
        .panic "index out of range"⟩ := by
  unfold handleFetchIBTPTssSignMessage
  simp only [hreq, hsplit]
  rw [run_index_bind_of_some [p] 0 p _ _ rfl]
  simp only [Exec.run_emit_bind]
  rw [run_index_bind_of_some [p] 0 p _ _ rfl, run_index_bind_of_none [p] 1 _ _ rfl]

/-- A notice whose extra has fewer than three hyphen-separated tokens makes
`handleNotTssParties` panic on `signInfo[2]` before any effect. -/
theorem handleNotTssParties_panics_of_short_extra (sw : Swarm PM PC) (s : Stream)
    (data : Bytes) (st : Piers PM PC) (req : GetSignsRequest)
    (hreq : sw.unmarshalGetSignsRequest data = .ok req)
    (hlen : (Split req.Extra (Char.ofNat 45)).length < 3) :
    handleNotTssParties sw s data st = ⟨[], .panic "index out of range"⟩ := by
  unfold handleNotTssParties
  simp only [hreq]
  rw [run_index_bind_of_none _ 2 _ _ (List.get?_eq_none.mpr (by omega))]

/-- C4, at the inputs on which the code departs from it. A sign request whose
extra is `n1,n2`, without a hyphen, makes `handleFetchIBTPTssSignMessage`
panic with an index out of range on `signInfo[1]`; a notice whose extra is
`n1,n2-7`, with two tokens, makes `handleNotTssParties` panic on
`signInfo[2]`. Neither logs a failure and returns. -/
theorem short_extra_panics_with_index_out_of_range :
    handleFetchIBTPTssSignMessage (sampleSwarm []) sampleStream "req|ibtp1|n1,n2" true
        samplePiers =
      ⟨[.logDebug "handleFetchIBTPTssSignMessage, signers: %s" [.str "n1,n2"]],
        .panic "index out of range"⟩ ∧
    handleNotTssParties (sampleSwarm []) sampleStream "req|ibtp1|n1,n2-7" samplePiers =
      ⟨[], .panic "index out of range"⟩ := by
  constructor
  · exact handleFetchIBTPTssSignMessage_panics_of_one_token (sampleSwarm []) sampleStream
      "req|ibtp1|n1,n2" true samplePiers
      { Typ := .TSS_IBTP_REQUEST, Content := "ibtp1", Extra := "n1,n2" } "n1,n2"
      (by decide) (by decide)
  · exact handleNotTssParties_panics_of_short_extra (sampleSwarm []) sampleStream
      "req|ibtp1|n1,n2-7" samplePiers
      { Typ := .TSS_IBTP_REQUEST, Content := "ibtp1", Extra := "n1,n2-7" }
      (by decide) (by decide)

/-- C5, refuted as stated: on a notice with participants `n1,n2`,
sub-identifier `7` and non-participants `n3`, the TSS capability is not
notified with the list `n3`; it is notified with the list `n1`, `n2`. -/
theorem notice_forwards_first_component :
    ¬ (Event.notifyNotTssParties "ibtp1" true (Split "n3" (Char.ofNat 44)) "7" ∈
        (handleNotTssParties (sampleSwarm []) sampleStream "req|ibtp1|n1,n2-7-n3"
          samplePiers).trace) ∧
    Event.notifyNotTssParties "ibtp1" true ["n1", "n2"] "7" ∈
      (handleNotTssParties (sampleSwarm []) sampleStream "req|ibtp1|n1,n2-7-n3"
        samplePiers).trace := by
  decide

/-- C5, amended. On a notice whose extra has exactly the three components
`p`, `sub` and `np`, `handleNotTssParties` writes `np` to the debug log and
notifies the TSS capability once, with the artifact id of the request, the
direction read from the request kind, the comma-split of the first component
`p` and the sub-identifier `sub`. When the capability accepts, the fixed ack
is sent on the stream; when it fails, the failure is logged and nothing is
sent. -/
theorem handleNotTssParties_notifies_with_first_component (sw : Swarm PM PC) (s : Stream)
    (data : Bytes) (st : Piers PM PC) (req : GetSignsRequest) (p sub np : String)
    (hreq : sw.unmarshalGetSignsRequest data = .ok req)
    (hsplit : Split req.Extra (Char.ofNat 45) = [p, sub, np]) :
    handleNotTssParties sw s data st =
      ⟨[Event.logDebug "handleNotTssParties, notParties nodes: %s" [.str np],
        Event.notifyNotTssParties req.Content (decide (req.Typ = .TSS_IBTP_REQUEST))
          (Split p (Char.ofNat 44)) sub] ++
        (match sw.utilsNotifyNotTssParties req.Content (decide (req.Typ = .TSS_IBTP_REQUEST))
            (Split p (Char.ofNat 44)) sub with
          | some err =>
            [Event.logError
              "handle not parties tss nodes keyRoundDone err: ibtp: %s isReq %v: %s"
              [.str data, .bool (decide (req.Typ = .TSS_IBTP_REQUEST)), .err err]]
          | none =>
            Event.sendWithStream s { Typ := .Tss_KEYSIGN_NOT_PARTIES_ACK, Data := "ok" } ::
              (match sw.transportSendWithStream s
                  { Typ := .Tss_KEYSIGN_NOT_PARTIES_ACK, Data := "ok" } with
                | some err => [Event.logError "send tss back: %s" [.err err]]
                | none => [])),
        .ret () st⟩ := by
  unfold handleNotTssParties
  simp only [hreq, hsplit]
  rw [run_index_bind_of_some [p, sub, np] 2 np _ _ rfl]
  simp only [Exec.run_emit_bind]
  rw [run_index_bind_of_some [p, sub, np] 0 p _ _ rfl,
    run_index_bind_of_some [p, sub, np] 1 sub _ _ rfl]
  simp only [Exec.run_emit_bind]
  cases hn : sw.utilsNotifyNotTssParties req.Content (decide (req.Typ = .TSS_IBTP_REQUEST))
      (Split p (Char.ofNat 44)) sub with
  | some err => simp
  | none =>
    cases hs : sw.transportSendWithStream s
        { Typ := .Tss_KEYSIGN_NOT_PARTIES_ACK, Data := "ok" } with
    | some err => simp [hs]
    | none => simp [hs]

/-- Witness of the amended C5: the notice with participants `n1,n2`,
sub-identifier `7` and non-participants `n3`. -/
theorem handleNotTssParties_notifies_with_first_component_witness :
    handleNotTssParties (sampleSwarm []) sampleStream "req|ibtp1|n1,n2-7-n3" samplePiers =
      ⟨[Event.logDebug "handleNotTssParties, notParties nodes: %s" [.str "n3"],
        Event.notifyNotTssParties "ibtp1" true ["n1", "n2"] "7",
        Event.sendWithStream sampleStream { Typ := .Tss_KEYSIGN_NOT_PARTIES_ACK, Data := "ok" }],
        .ret () samplePiers⟩ :=
  handleNotTssParties_notifies_with_first_component (sampleSwarm []) sampleStream
    "req|ibtp1|n1,n2-7-n3" samplePiers
    { Typ := .TSS_IBTP_REQUEST, Content := "ibtp1", Extra := "n1,n2-7-n3" } "n1,n2" "7" "n3"
    (by decide) (by decide)

end SignLemmas

section DispatchLemmas

variable {PM PC : Type}

/-- C6. For a threshold-sign request whose extra has at least the two tokens
`p` and `sub`: when the TSS capability returns a signature and culprits (and
the codec encodes the wrapper), `handleFetchIBTPTssSignMessage` puts exactly
one message on the network, a broadcast of kind `FETCH_IBTP_TSS_SIGN_ACK`
carrying the encoding of this node's address, that signature and those
culprits, and nothing on the stream; when the capability fails, or the request
does not decode, it puts no message on the network. In each case it
returns. -/
theorem tss_sign_broadcasts_once_or_stays_silent (sw : Swarm PM PC) (s : Stream)
    (data : Bytes) (isReq : Bool) (st : Piers PM PC) :
    (∀ req p sub rest signed culpritIDs body,
      sw.unmarshalGetSignsRequest data = .ok req →
      Split req.Extra (Char.ofNat 45) = p :: sub :: rest →
      sw.utilsGetIBTPTssSign req.Content isReq (Split p (Char.ofNat 44)) sub
        = .ok (signed, culpritIDs) →
      sw.marshalMerkleWrapperSign
        { Address := sw.KeyAddress, Signature := signed, CulpritIDs := culpritIDs } = .ok body →
      (handleFetchIBTPTssSignMessage sw s data isReq st).trace.filter Event.isOutbound =
          [Event.broadcast { Typ := .FETCH_IBTP_TSS_SIGN_ACK, Data := body }] ∧
        (handleFetchIBTPTssSignMessage sw s data isReq st).out = .ret () st) ∧
    (∀ req p sub rest err,
      sw.unmarshalGetSignsRequest data = .ok req →
      Split req.Extra (Char.ofNat 45) = p :: sub :: rest →
      sw.utilsGetIBTPTssSign req.Content isReq (Split p (Char.ofNat 44)) sub = .error err →
      (handleFetchIBTPTssSignMessage sw s data isReq st).trace.filter Event.isOutbound = [] ∧
        (handleFetchIBTPTssSignMessage sw s data isReq st).out = .ret () st) ∧
    (∀ err, sw.unmarshalGetSignsRequest data = .error err →
      (handleFetchIBTPTssSignMessage sw s data isReq st).trace.filter Event.isOutbound = [] ∧
        (handleFetchIBTPTssSignMessage sw s data isReq st).out = .ret () st) := by
  refine ⟨?_, ?_, ?_⟩
  · intro req p sub rest signed culpritIDs body hreq hsplit htss hbody
    unfold handleFetchIBTPTssSignMessage
    simp only [hreq, hsplit]
    rw [run_index_bind_of_some (p :: sub :: rest) 0 p _ _ rfl]
    simp only [Exec.run_emit_bind]
    rw [run_index_bind_of_some (p :: sub :: rest) 0 p _ _ rfl,
      run_index_bind_of_some (p :: sub :: rest) 1 sub _ _ rfl]
    simp only [Exec.run_emit_bind, htss, hbody]
    cases hb : sw.transportBroadcast { Typ := .FETCH_IBTP_TSS_SIGN_ACK, Data := body } with
    | some e => simp [hb, Event.isOutbound]
    | none => simp [hb, Event.isOutbound]
  · intro req p sub rest err hreq hsplit htss
    unfold handleFetchIBTPTssSignMessage
    simp only [hreq, hsplit]
    rw [run_index_bind_of_some (p :: sub :: rest) 0 p _ _ rfl]
    simp only [Exec.run_emit_bind]
    rw [run_index_bind_of_some (p :: sub :: rest) 0 p _ _ rfl,
      run_index_bind_of_some (p :: sub :: rest) 1 sub _ _ rfl]
    simp [htss, Event.isOutbound]
  · intro err hreq
    unfold handleFetchIBTPTssSignMessage
    simp [hreq, Event.isOutbound]

/-- Witness of C6: a request with signers `n1,n2,n3` and sub-identifier `7`
on a node whose TSS capability succeeds, the same request on a node whose TSS
capability fails, and a payload that does not decode. -/
theorem tss_sign_broadcasts_once_or_stays_silent_witness :
    ((handleFetchIBTPTssSignMessage (sampleSwarm []) sampleStream "req|ibtp1|n1,n2,n3-7" true
          samplePiers).trace.filter Event.isOutbound =
        [Event.broadcast { Typ := .FETCH_IBTP_TSS_SIGN_ACK, Data := "0xnode|tsssig|n3" }] ∧
      (handleFetchIBTPTssSignMessage (sampleSwarm []) sampleStream "req|ibtp1|n1,n2,n3-7" true
          samplePiers).out = .ret () samplePiers) ∧
    ((handleFetchIBTPTssSignMessage (sampleSwarmTssDown []) sampleStream "req|ibtp1|n1,n2,n3-7"
          true samplePiers).trace.filter Event.isOutbound = [] ∧
      (handleFetchIBTPTssSignMessage (sampleSwarmTssDown []) sampleStream "req|ibtp1|n1,n2,n3-7"
          true samplePiers).out = .ret () samplePiers) ∧
    ((handleFetchIBTPTssSignMessage (sampleSwarm []) sampleStream "garbage" true
          samplePiers).trace.filter Event.isOutbound = [] ∧
      (handleFetchIBTPTssSignMessage (sampleSwarm []) sampleStream "garbage" true
          samplePiers).out = .ret () samplePiers) :=
  ⟨(tss_sign_broadcasts_once_or_stays_silent (sampleSwarm []) sampleStream
      "req|ibtp1|n1,n2,n3-7" true samplePiers).1
      { Typ := .TSS_IBTP_REQUEST, Content := "ibtp1", Extra := "n1,n2,n3-7" } "n1,n2,n3" "7" []
      "tsssig" ["n3"] "0xnode|tsssig|n3" (by decide) (by decide) (by decide) (by decide),
   (tss_sign_broadcasts_once_or_stays_silent (sampleSwarmTssDown []) sampleStream
      "req|ibtp1|n1,n2,n3-7" true samplePiers).2.1
      { Typ := .TSS_IBTP_REQUEST, Content := "ibtp1", Extra := "n1,n2,n3-7" } "n1,n2,n3" "7" []
      (.external "keysign failed") (by decide) (by decide) (by decide),
   (tss_sign_broadcasts_once_or_stays_silent (sampleSwarm []) sampleStream "garbage" true
      samplePiers).2.2 (.external "bad sign request") (by decide)⟩

/-- C7. The decision table of `handleAskPierMaster` for an address `data`.
The handler returns, leaving the pending queries as they were and the
directory unchanged except when there is no pending query, the address is
known and no master is on file, in which case the directory becomes
`rmMaster` of it. Every message it puts on the network is a direct send to the
peer of the stream of an encoded `CHECK_MASTER_PIER_ACK` envelope around the
response with status `HAS_MASTER` and the queried address, and is sent only
when a query is pending for the address or the address is known with a master
on file. When the codec encodes that response and envelope, exactly one such
ack is sent in those cases and nothing otherwise. -/
theorem ask_pier_master_decision_table (sw : Swarm PM PC) (s : Stream) (data : Bytes)
    (st : Piers PM PC) :
    (handleAskPierMaster sw s data st).out =
        .ret ()
          { pierMap :=
              if sw.checkAddress st.pierChan data = false ∧ sw.hasPier st.pierMap data = true ∧
                  sw.checkMaster st.pierMap data = false
              then sw.rmMaster st.pierMap data else st.pierMap,
            pierChan := st.pierChan } ∧
    (∀ e ∈ (handleAskPierMaster sw s data st).trace, e.isOutbound = true →
      (sw.checkAddress st.pierChan data = true ∨
        (sw.hasPier st.pierMap data = true ∧ sw.checkMaster st.pierMap data = true)) ∧
      ∃ msgData msg,
        sw.marshalCheckPierResponse { Status := .HAS_MASTER, Address := data } = .ok msgData ∧
        sw.marshalMessage { Typ := .CHECK_MASTER_PIER_ACK, Data := msgData } = .ok msg ∧
        e = Event.asyncSend s.RemotePeerID msg) ∧
    (∀ msgData msg,
      sw.marshalCheckPierResponse { Status := .HAS_MASTER, Address := data } = .ok msgData →
      sw.marshalMessage { Typ := .CHECK_MASTER_PIER_ACK, Data := msgData } = .ok msg →
      (handleAskPierMaster sw s data st).trace.filter Event.isOutbound =
        if sw.checkAddress st.pierChan data = true ∨
            (sw.hasPier st.pierMap data = true ∧ sw.checkMaster st.pierMap data = true)
        then [Event.asyncSend s.RemotePeerID msg] else []) := by
  obtain ⟨pm, pc⟩ := st
  refine ⟨?_, ?_, ?_⟩
  · unfold handleAskPierMaster
    simp only [Exec.run_get_bind]
    rcases h1 : sw.marshalCheckPierResponse { Status := .HAS_MASTER, Address := data }
      with err1 | msgData
    · cases hc : sw.checkAddress pc data <;> cases hh : sw.hasPier pm data <;>
        cases hk : sw.checkMaster pm data <;> simp [h1]
    · rcases h2 : sw.marshalMessage { Typ := .CHECK_MASTER_PIER_ACK, Data := msgData }
        with err2 | msg
      · cases hc : sw.checkAddress pc data <;> cases hh : sw.hasPier pm data <;>
          cases hk : sw.checkMaster pm data <;> simp [h1, h2]
      · cases hc : sw.checkAddress pc data <;> cases hh : sw.hasPier pm data <;>
          cases hk : sw.checkMaster pm data <;>
          cases h3 : sw.transportAsyncSend s.RemotePeerID msg <;> simp [h1, h2, h3]
  · intro e he hout
    unfold handleAskPierMaster at he
    simp only [Exec.run_get_bind] at he
    rcases h1 : sw.marshalCheckPierResponse { Status := .HAS_MASTER, Address := data }
      with err1 | msgData
    · cases hc : sw.checkAddress pc data <;> cases hh : sw.hasPier pm data <;>
        cases hk : sw.checkMaster pm data <;> simp [hc, hh, hk, h1] at he <;>
        simp_all [Event.isOutbound]
    · rcases h2 : sw.marshalMessage { Typ := .CHECK_MASTER_PIER_ACK, Data := msgData }
        with err2 | msg
      · cases hc : sw.checkAddress pc data <;> cases hh : sw.hasPier pm data <;>
          cases hk : sw.checkMaster pm data <;> simp [hc, hh, hk, h1, h2] at he <;>
          simp_all [Event.isOutbound]
      · have key : e = Event.asyncSend s.RemotePeerID msg ∧
            (sw.checkAddress pc data = true ∨
              (sw.hasPier pm data = true ∧ sw.checkMaster pm data = true)) := by
          cases hc : sw.checkAddress pc data <;> cases hh : sw.hasPier pm data <;>
            cases hk : sw.checkMaster pm data <;>
            cases h3 : sw.transportAsyncSend s.RemotePeerID msg <;>
            simp [hc, hh, hk, h1, h2, h3] at he <;>
            (try rcases he with he | he) <;>
            simp_all [Event.isOutbound]
        exact ⟨key.2, msgData, msg, rfl, h2, key.1⟩
  · intro msgData msg h1 h2
    unfold handleAskPierMaster
    simp only [Exec.run_get_bind]
    cases hc : sw.checkAddress pc data <;> cases hh : sw.hasPier pm data <;>
      cases hk : sw.checkMaster pm data <;>
      cases h3 : sw.transportAsyncSend s.RemotePeerID msg <;>
      simp [h1, h2, h3, Event.isOutbound]

/-- Witness of C7: an address known with a master on file is answered with
one ack; an address known without a master is not answered and the directory
is handed to `rmMaster`. -/
theorem ask_pier_master_decision_table_witness :
    ((handleAskPierMaster (sampleSwarm []) sampleStream "addr1"
        { pierMap := [("addr1", true)], pierChan := [] }).trace.filter Event.isOutbound =
      [Event.asyncSend "peer1" "msg:HAS_MASTER:addr1"]) ∧
    (((sampleSwarm []).checkAddress [] "addr1" = true ∨
        ((sampleSwarm []).hasPier [("addr1", true)] "addr1" = true ∧
          (sampleSwarm []).checkMaster [("addr1", true)] "addr1" = true)) ∧
      ∃ msgData msg,
        (sampleSwarm []).marshalCheckPierResponse { Status := .HAS_MASTER, Address := "addr1" }
          = .ok msgData ∧
        (sampleSwarm []).marshalMessage { Typ := .CHECK_MASTER_PIER_ACK, Data := msgData }
          = .ok msg ∧
        Event.asyncSend "peer1" "msg:HAS_MASTER:addr1" = Event.asyncSend sampleStream.RemotePeerID msg) ∧
    ((handleAskPierMaster (sampleSwarm []) sampleStream "addr1"
        { pierMap := [("addr1", false)], pierChan := [] }).out =
      .ret () { pierMap := [("addr1", false)], pierChan := [] }) :=
  ⟨(ask_pier_master_decision_table (sampleSwarm []) sampleStream "addr1"
      { pierMap := [("addr1", true)], pierChan := [] }).2.2
      "HAS_MASTER:addr1" "msg:HAS_MASTER:addr1" (by decide) (by decide),
   (ask_pier_master_decision_table (sampleSwarm []) sampleStream "addr1"
      { pierMap := [("addr1", true)], pierChan := [] }).2.1
      (Event.asyncSend "peer1" "msg:HAS_MASTER:addr1") (by decide) (by decide),
   (ask_pier_master_decision_table (sampleSwarm []) sampleStream "addr1"
      { pierMap := [("addr1", false)], pierChan := [] }).1⟩

/-- C8. An envelope that decodes to a kind without a case in the switch: the
switch returns no error after the two log lines of the default case and
nothing else, so it calls no handler, puts no message on the network and
hands nothing to a feed; `handleMessage` likewise returns with the same two
log lines as its only effects, and the state is unchanged. -/
theorem unknown_kind_is_logged_and_dropped (sw : Swarm PM PC) (fuel : Nat) (s : Stream)
    (data : Bytes) (m : Message) (st : Piers PM PC)
    (hdec : sw.unmarshalMessage data = .ok m) (hkind : m.Typ ∉ switchKinds) :
    handleMessage.handler sw fuel s m st =
        ⟨[Event.logDebug "handle msg: %s" [], Event.logError "can't handle msg[type: %v]" []],
          .ret none st⟩ ∧
      handleMessage sw fuel s data st =
        ⟨[Event.logDebug "handle msg: %s" [], Event.logError "can't handle msg[type: %v]" []],
          .ret () st⟩ ∧
      (∀ e ∈ (handleMessage sw fuel s data st).trace,
        e.isInvoke = false ∧ e.isOutbound = false ∧ e.isFeed = false) := by
  have hrun : handleMessage.handler sw fuel s m st =
      ⟨[Event.logDebug "handle msg: %s" [], Event.logError "can't handle msg[type: %v]" []],
        .ret none st⟩ := by
    obtain ⟨t, d⟩ := m
    cases t <;> simp [switchKinds] at hkind <;> rfl
  have hmsg : handleMessage sw fuel s data st =
      ⟨[Event.logDebug "handle msg: %s" [], Event.logError "can't handle msg[type: %v]" []],
        .ret () st⟩ := by
    unfold handleMessage
    simp only [hdec]
    rw [Exec.run_bind_of_ret _ _ _ _ _ _ hrun]
    simp
  refine ⟨hrun, hmsg, ?_⟩
  intro e he
  rw [hmsg] at he
  simp at he
  rcases he with he | he <;> subst he <;> simp [Event.isInvoke, Event.isOutbound, Event.isFeed]

/-- Witness of C8: an envelope of kind `GET_BLOCK_ACK`, which the switch does
not list. -/
theorem unknown_kind_is_logged_and_dropped_witness :
    handleMessage.handler (sampleSwarm []) 1 sampleStream
        { Typ := .GET_BLOCK_ACK, Data := "x" } samplePiers =
        ⟨[Event.logDebug "handle msg: %s" [], Event.logError "can't handle msg[type: %v]" []],
          .ret none samplePiers⟩ ∧
      handleMessage (sampleSwarm []) 1 sampleStream "GET_BLOCK_ACK:x" samplePiers =
        ⟨[Event.logDebug "handle msg: %s" [], Event.logError "can't handle msg[type: %v]" []],
          .ret () samplePiers⟩ ∧
      (∀ e ∈ (handleMessage (sampleSwarm []) 1 sampleStream "GET_BLOCK_ACK:x" samplePiers).trace,
        e.isInvoke = false ∧ e.isOutbound = false ∧ e.isFeed = false) :=
  unknown_kind_is_logged_and_dropped (sampleSwarm []) 1 sampleStream "GET_BLOCK_ACK:x"
    { Typ := .GET_BLOCK_ACK, Data := "x" } samplePiers (by decide) (by decide)

end DispatchLemmas

end Peermgr

/-! # Properties of the service resolver contract -/

namespace Contracts

/-- C9. The guard of the mutating operations. When `authorised` rejects the
name, each of `SetServDomainData`, `SetAddr`, `SetServiceName`,
`SetServiceDes`, `SetDids`, `SetReverse` and `DeleteServDomainData` returns
the error `The domain name does not belong to you` and leaves the store as it
was, whatever its other arguments. When `authorised` accepts the name, both
calls of the registry succeeded, and the owner it returned is the caller or
its approval answer for the current caller parses to true. -/
theorem unauthorised_mutation_is_rejected (sr : Stub) (st : Store) (name : String) :
    (authorised sr name = false →
      (∀ coinTyp addr serviceName des dids,
        SetServDomainData sr name coinTyp addr serviceName des dids st = .done notYours st) ∧
      (∀ coinTyp addr, SetAddr sr name coinTyp addr st = .done notYours st) ∧
      (∀ serviceName reverse,
        SetServiceName sr name serviceName reverse st = .done notYours st) ∧
      (∀ des, SetServiceDes sr name des st = .done notYours st) ∧
      (∀ dids, SetDids sr name dids st = .done notYours st) ∧
      (∀ serviceName, SetReverse sr serviceName name st = .done notYours st) ∧
      DeleteServDomainData sr name st = .done notYours st) ∧
    (authorised sr name = true →
      (sr.CrossInvoke sr.ServiceRegistryContractAddr "Owner" [name]).Ok = true ∧
      (sr.CrossInvoke sr.ServiceRegistryContractAddr "IsApproved"
        [sr.CurrentCaller, sr.ServiceResolverContractAddr]).Ok = true ∧
      ((sr.CrossInvoke sr.ServiceRegistryContractAddr "Owner" [name]).Result = sr.Caller ∨
        ParseBool (sr.CrossInvoke sr.ServiceRegistryContractAddr "IsApproved"
          [sr.CurrentCaller, sr.ServiceResolverContractAddr]).Result = some true)) := by
  constructor
  · intro h
    refine ⟨?_, ?_, ?_, ?_, ?_, ?_, ?_⟩
    · intro coinTyp addr serviceName des dids
      simp [SetServDomainData, h]
    · intro coinTyp addr
      simp [SetAddr, h]
    · intro serviceName reverse
      simp [SetServiceName, h]
    · intro des
      simp [SetServiceDes, h]
    · intro dids
      simp [SetDids, h]
    · intro serviceName
      simp [SetReverse, h]
    · simp [DeleteServDomainData, h]
  · intro h
    unfold authorised at h
    cases h1 : (sr.CrossInvoke sr.ServiceRegistryContractAddr "Owner" [name]).Ok with
    | false => simp [h1] at h
    | true =>
      cases h2 : (sr.CrossInvoke sr.ServiceRegistryContractAddr "IsApproved"
          [sr.CurrentCaller, sr.ServiceResolverContractAddr]).Ok with
      | false => simp [h1, h2] at h
      | true =>
        cases h3 : ParseBool (sr.CrossInvoke sr.ServiceRegistryContractAddr "IsApproved"
            [sr.CurrentCaller, sr.ServiceResolverContractAddr]).Result with
        | none => simp [h1, h2, h3] at h
        | some b =>
          simp [h1, h2, h3] at h
          refine ⟨rfl, rfl, ?_⟩
          rcases h with h | h
          · exact Or.inl h
          · exact Or.inr (by rw [h])

/-- Witness of C9: `bob` acts on a name owned by `alice` without approval and
is rejected by every operation; `alice` is accepted as the owner. -/
theorem unauthorised_mutation_is_rejected_witness :
    ((∀ coinTyp addr serviceName des dids,
        SetServDomainData (sampleStub "bob") "a.b.c" coinTyp addr serviceName des dids
          sampleStore = .done notYours sampleStore) ∧
      (∀ coinTyp addr,
        SetAddr (sampleStub "bob") "a.b.c" coinTyp addr sampleStore = .done notYours sampleStore) ∧
      (∀ serviceName reverse,
        SetServiceName (sampleStub "bob") "a.b.c" serviceName reverse sampleStore =
          .done notYours sampleStore) ∧
      (∀ des, SetServiceDes (sampleStub "bob") "a.b.c" des sampleStore =
        .done notYours sampleStore) ∧
      (∀ dids, SetDids (sampleStub "bob") "a.b.c" dids sampleStore = .done notYours sampleStore) ∧
      (∀ serviceName, SetReverse (sampleStub "bob") serviceName "a.b.c" sampleStore =
        .done notYours sampleStore) ∧
      DeleteServDomainData (sampleStub "bob") "a.b.c" sampleStore = .done notYours sampleStore) ∧
    ((sampleCrossInvoke "0xregistry" "Owner" ["a.b.c"]).Ok = true ∧
      (sampleCrossInvoke "0xregistry" "IsApproved" ["alice", "0xresolver"]).Ok = true ∧
      ((sampleCrossInvoke "0xregistry" "Owner" ["a.b.c"]).Result = "alice" ∨
        ParseBool (sampleCrossInvoke "0xregistry" "IsApproved" ["alice", "0xresolver"]).Result
          = some true)) :=
  ⟨(unauthorised_mutation_is_rejected (sampleStub "bob") sampleStore "a.b.c").1 (by decide),
   (unauthorised_mutation_is_rejected (sampleStub "alice") sampleStore "a.b.c").2 (by decide)⟩

/-- The statement of `DeleteServDomainData` that removes position `i` never
shortens what the entry of the map reads: the shifted backing array has the
length of the list before. -/
theorem appendInPlace_drop_length (a : List String) (i : Nat) (hi : i < a.length) :
    (appendInPlace a i (a.drop (i + 1))).length = a.length := by
  unfold appendInPlace
  simp only [List.length_append, List.length_take, List.length_drop]
  omega

/-- C10, at the inputs on which the code departs from it. The owner deletes a
name of service `svc` whose reverse list is `a.b.c`, `d.e.f`. Deleting the
last name `d.e.f` succeeds and removes its record, but the stored reverse list
still holds `d.e.f`. Deleting the name `a.b.c`, which is not the last,
succeeds and removes its record, but the stored reverse list becomes `d.e.f`,
`d.e.f`: the name kept is duplicated. -/
theorem delete_leaves_reverse_list_at_full_length :
    ((DeleteServDomainData (sampleStub "alice") "d.e.f" sampleStore).resp = some (Success "") ∧
      (DeleteServDomainData (sampleStub "alice") "d.e.f" sampleStore).store.map
          (fun st => (st "d.e.f", st ReverseMap)) =
        some (none, some (.reverse [("svc", ["a.b.c", "d.e.f"])]))) ∧
    ((DeleteServDomainData (sampleStub "alice") "a.b.c" sampleStore).resp = some (Success "") ∧
      (DeleteServDomainData (sampleStub "alice") "a.b.c" sampleStore).store.map
          (fun st => (st "a.b.c", st ReverseMap)) =
        some (none, some (.reverse [("svc", ["d.e.f", "d.e.f"])]))) := by
  decide

/-- Reading a key of a Go map right after writing it gives the value
written. -/
theorem mapGet_mapSet_self {κ ν : Type} [DecidableEq κ] (zero : ν) (m : List (κ × ν)) (k : κ)
    (v : ν) : mapGet zero (mapSet m k v) k = v := by
  induction m with
  | nil => simp [mapSet, mapGet]
  | cons e rest ih =>
    obtain ⟨k1, v1⟩ := e
    by_cases h : k1 = k
    · simp [mapSet, mapGet, h]
    · simp [mapSet, mapGet, h, ih]

/-- Writing a key of a Go map leaves the reading of every other key as it
was. -/
theorem mapGet_mapSet_other {κ ν : Type} [DecidableEq κ] (zero : ν) (m : List (κ × ν))
    (k k2 : κ) (v : ν) (hne : k2 ≠ k) : mapGet zero (mapSet m k v) k2 = mapGet zero m k2 := by
  induction m with
  | nil => simp [mapSet, mapGet, Ne.symm hne]
  | cons e rest ih =>
    obtain ⟨k1, v1⟩ := e
    by_cases h : k1 = k
    · subst h
      simp [mapSet, mapGet, Ne.symm hne]
    · by_cases h2 : k1 = k2
      · subst h2
        simp [mapSet, mapGet, h]
      · simp [mapSet, mapGet, h, h2, ih]

/-- On a stored record whose address map is present, `SetAddr` by an
authorised caller returns success and stores the record with `coinTyp` mapped
to `addr`, the address of every other coin type and every other field as they
were; no other key of the store changes. -/
theorem SetAddr_of_record_with_map (sr : Stub) (st : Store) (name : String) (coinTyp : Nat)
    (addr : String) (d : ServDomainData) (m : List (Nat × String))
    (hauth : authorised sr name = true) (hrec : st name = some (.servDomain d))
    (hmap : d.Addr = some m) :
    SetAddr sr name coinTyp addr st =
        .done (Success "")
          (SetObject st name (.servDomain { d with Addr := some (mapSet m coinTyp addr) })) ∧
      mapGet "" (mapSet m coinTyp addr) coinTyp = addr ∧
      ∀ other, other ≠ coinTyp → mapGet "" (mapSet m coinTyp addr) other = mapGet "" m other := by
  refine ⟨?_, mapGet_mapSet_self "" m coinTyp addr,
    fun other hne => mapGet_mapSet_other "" m coinTyp other addr hne⟩
  have hd : getDataByDomain st name = d := by
    unfold getDataByDomain
    rw [hrec]
  unfold SetAddr
  simp [hauth, hd, hmap]

/-- Whenever the record read for the name has a nil address map, `SetAddr` by
an authorised caller panics on the assignment into that map and stores
nothing. -/
theorem SetAddr_panics_of_nil_map (sr : Stub) (st : Store) (name : String) (coinTyp : Nat)
    (addr : String) (hauth : authorised sr name = true)
    (hnil : (getDataByDomain st name).Addr = none) :
    SetAddr sr name coinTyp addr st = .panic "assignment to entry in nil map" := by
  unfold SetAddr
  simp [hauth, hnil]

/-- The record that `SetServiceName`, `SetServiceDes` and `SetDids` store for
a name without a record keeps the nil address map of the zero value. -/
theorem first_write_keeps_nil_map (sr : Stub) (st : Store) (name : String)
    (hauth : authorised sr name = true) (hrec : st name = none) :
    (∀ serviceName, serviceName ≠ "" →
      SetServiceName sr name serviceName false st =
        .done (Success "") (SetObject st name (.servDomain
          { Addr := none, ServiceName := serviceName, Des := "", Dids := [] }))) ∧
    (∀ des, SetServiceDes sr name des st =
      .done (Success "") (SetObject st name (.servDomain
        { Addr := none, ServiceName := "", Des := des, Dids := [] }))) ∧
    (∀ dids, SetDids sr name dids st =
      .done (Success "") (SetObject st name (.servDomain
        { Addr := none, ServiceName := "", Des := "", Dids := Peermgr.Split dids (Char.ofNat 44) }))) := by
  have hd : getDataByDomain st name =
      { Addr := none, ServiceName := "", Des := "", Dids := [] } := by
    unfold getDataByDomain
    rw [hrec]
  refine ⟨?_, ?_, ?_⟩
  · intro serviceName hne
    unfold SetServiceName
    simp [hauth, hne, hd]
  · intro des
    unfold SetServiceDes
    simp [hauth, hd]
  · intro dids
    unfold SetDids
    simp [hauth, hd]

/-- C11, at the inputs on which the code departs from it. The owner calls
`SetAddr` on the name `x.y.z`, which has no stored record: the record read is
the zero value, whose address map is nil, and the assignment into it panics.
The same happens when the record of `x.y.z` was first written by
`SetServiceName`, by `SetServiceDes` or by `SetDids`: each of them stores the
nil map, and the following `SetAddr` panics. In no case does `SetAddr` return
success or store an address. -/
theorem SetAddr_on_absent_address_map_panics :
    SetAddr (sampleStub "alice") "x.y.z" 60 "0xabc" sampleStore =
        .panic "assignment to entry in nil map" ∧
      (SetServiceName (sampleStub "alice") "x.y.z" "svc2" false sampleStore).andThen
          (SetAddr (sampleStub "alice") "x.y.z" 60 "0xabc") =
        .panic "assignment to entry in nil map" ∧
      (SetServiceDes (sampleStub "alice") "x.y.z" "a service" sampleStore).andThen
          (SetAddr (sampleStub "alice") "x.y.z" 60 "0xabc") =
        .panic "assignment to entry in nil map" ∧
      (SetDids (sampleStub "alice") "x.y.z" "did1,did2" sampleStore).andThen
          (SetAddr (sampleStub "alice") "x.y.z" 60 "0xabc") =
        .panic "assignment to entry in nil map" := by
  have hauth : authorised (sampleStub "alice") "x.y.z" = true := by decide
  have hrec : sampleStore "x.y.z" = none := by decide
  have hnil : ∀ d : ServDomainData, d.Addr = none →
      (getDataByDomain (SetObject sampleStore "x.y.z" (.servDomain d)) "x.y.z").Addr = none := by
    intro d hd
    simp [getDataByDomain, SetObject, hd]
  obtain ⟨hname, hdes, hdids⟩ := first_write_keeps_nil_map (sampleStub "alice") sampleStore
    "x.y.z" hauth hrec
  refine ⟨?_, ?_, ?_, ?_⟩
  · exact SetAddr_panics_of_nil_map (sampleStub "alice") sampleStore "x.y.z" 60 "0xabc" hauth
      (by decide)
  · rw [hname "svc2" (by decide)]
    exact SetAddr_panics_of_nil_map (sampleStub "alice") _ "x.y.z" 60 "0xabc" hauth
      (hnil _ rfl)
  · rw [hdes "a service"]
    exact SetAddr_panics_of_nil_map (sampleStub "alice") _ "x.y.z" 60 "0xabc" hauth
      (hnil _ rfl)
  · rw [hdids "did1,did2"]
    exact SetAddr_panics_of_nil_map (sampleStub "alice") _ "x.y.z" 60 "0xabc" hauth
      (hnil _ rfl)

end Contracts
